import Mathlib

/-!
# RollTheDice — verification of the turn-engine spec against `app/main.py` and `app/rules.py`

Shallow embedding of the dice-scoring functions and of the per-room game-state
machine of the WebSocket handler `ws_game`.  Dice are lists of natural numbers
(`0` = not yet rolled), scores are integers, and the mutable room dict of the
Python source becomes an explicit `Game` record threaded through a `step`
function, one clause per handled action.

Abstractions kept out of the model (none is read by any claim):
* the per-player roll cooldown timer (`_roll_cooldown`, real time; it silently
  drops a roll without an error and without touching any other field),
* websocket handles, the spectator roster, chat/emoji payload fan-out,
* leaderboard file persistence (`_finalize_and_log_results` writes files only;
  it does not mutate the room state),
* wall-clock timestamps: time is an abstract `Nat` of seconds supplied with
  each inbound event; the 10-minute timeout is `600` of those units.
-/

/-! ## Dice counting helpers (`main._counts`, `main.has_n_of_a_kind`) -/

/-- Number of dice showing face `f` (used with `f ≠ 0`). -/
def countFace (dice : List Nat) (f : Nat) : Nat :=
  (dice.filter (fun d => d == f)).length

/-- Distinct nonzero faces, in first-appearance order (iteration order of
`Counter(d for d in dice if d)`). -/
def facesOf (dice : List Nat) : List Nat :=
  dice.foldl (fun acc d => if d = 0 ∨ d ∈ acc then acc else acc ++ [d]) []

/-- `main.has_n_of_a_kind`: at least `n` dice share one (nonzero) face. -/
def has_n_of_a_kind (dice : List Nat) (n : Nat) : Bool :=
  dice.any (fun d => d != 0 && n ≤ countFace dice d)

/-- Sum of the nonzero dice (`sum(d for d in dice if d)`). -/
def diceTotal (dice : List Nat) : Int :=
  ((dice.filter (fun d => d != 0)).map (fun d => (d : Int))).sum

/-- Multiplicities of the distinct nonzero faces, sorted ascending
(`sorted(cnt.values())`). -/
def sortedCounts (dice : List Nat) : List Nat :=
  ((facesOf dice).map (countFace dice)).insertionSort (· ≤ ·)

/-- The face realising the maximal multiplicity (`Counter.most_common(1)[0][0]`);
only consulted by the scorers in branches where that face is unique. -/
def mostFace (dice : List Nat) : Nat :=
  match facesOf dice with
  | [] => 0
  | f :: rest => rest.foldl (fun best x =>
      if countFace dice best < countFace dice x then x else best) f

/-- First (nonzero) face with multiplicity exactly `n`, if any
(iteration `for face, n in cnt.items()`). -/
def faceWithCount (dice : List Nat) (n : Nat) : Option Nat :=
  (facesOf dice).find? (fun f => countFace dice f == n)

/-- First (nonzero) face with multiplicity at least `n`, if any. -/
def faceWithCountGe (dice : List Nat) (n : Nat) : Option Nat :=
  (facesOf dice).find? (fun f => n ≤ countFace dice f)

/-- `int(field_key)` for the face keys "1".."6". -/
def faceOfKey (k : String) : Nat :=
  if k = "1" then 1 else if k = "2" then 2 else if k = "3" then 3
  else if k = "4" then 4 else if k = "5" then 5 else if k = "6" then 6 else 0

/-! ## `main.score_field_value` — the scorer the write handlers actually use -/

def score_field_value (field_key : String) (dice : List Nat) : Int :=
  if field_key = "1" ∨ field_key = "2" ∨ field_key = "3" ∨
     field_key = "4" ∨ field_key = "5" ∨ field_key = "6" then
    let face := faceOfKey field_key
    (countFace dice face : Int) * face
  else if field_key = "max" ∨ field_key = "min" then
    diceTotal dice
  else if field_key = "kenter" then
    if (facesOf dice).length = 5 then 35 else 0
  else if field_key = "full" then
    if facesOf dice = [] then 0
    else if sortedCounts dice = [2, 3] ∨ sortedCounts dice = [5] then
      40 + 3 * (mostFace dice : Int)
    else 0
  else if field_key = "poker" then
    match faceWithCountGe dice 4 with
    | some face => 50 + 4 * (face : Int)
    | none => 0
  else if field_key = "60" then
    match faceWithCount dice 5 with
    | some face => 60 + 5 * (face : Int)
    | none => 0
  else 0

/-! ## `rules.score_field` — the pure scorer of `rules.py`

`rules._counts` counts every die, including zeros, and raises `ValueError`
on an unknown field name (modelled as `none`). -/

def rulesFacesOf (dice : List Nat) : List Nat :=
  dice.foldl (fun acc d => if d ∈ acc then acc else acc ++ [d]) []

def rulesFaceWithCount (dice : List Nat) (n : Nat) : Option Nat :=
  (rulesFacesOf dice).find? (fun f => (dice.filter (fun d => d == f)).length == n)

def rulesMostFace (dice : List Nat) : Nat :=
  match rulesFacesOf dice with
  | [] => 0
  | f :: rest => rest.foldl (fun best x =>
      if (dice.filter (fun d => d == best)).length < (dice.filter (fun d => d == x)).length
      then x else best) f

def ROW_FIELDS : List String :=
  ["1", "2", "3", "4", "5", "6", "max", "min", "kenter", "full", "poker", "60"]

def rules_score_field (field_name : String) (dice : List Nat)
    (poker_allowed : Bool) : Option Int :=
  if field_name ∉ ROW_FIELDS then none
  else
    let total : Int := (dice.map (fun d => (d : Int))).sum
    if field_name = "1" ∨ field_name = "2" ∨ field_name = "3" ∨
       field_name = "4" ∨ field_name = "5" ∨ field_name = "6" then
      let face := faceOfKey field_name
      some ((countFace dice face : Int) * face)
    else if field_name = "max" then some total
    else if field_name = "min" then some total
    else if field_name = "kenter" then
      some (if (rulesFacesOf dice).length = 5 then 35 else 0)
    else if field_name = "full" then
      some (
        if (rulesFacesOf dice).length = 2 then
          if rulesFaceWithCount dice 4 = none then 40 + 3 * (rulesMostFace dice : Int)
          else 0
        else if rulesFaceWithCount dice 5 ≠ none then 40 + 3 * (rulesMostFace dice : Int)
        else 0)
    else if field_name = "poker" then
      some (
        if poker_allowed then
          match rulesFaceWithCount dice 4 with
          | some face => 50 + 4 * (face : Int)
          | none => 0
        else 0)
    else if field_name = "60" then
      some (
        match rulesFaceWithCount dice 5 with
        | some face => 60 + 5 * (face : Int)
        | none => 0)
    else none


/-! ## Board layout (`WRITABLE_ROWS`, `WRITABLE_MAP`, columns) -/

def WRITABLE_ROWS : List Nat := [0, 1, 2, 3, 4, 5, 9, 10, 12, 13, 14, 15]

def WRITABLE_MAP (row : Nat) : Option String :=
  match row with
  | 0 => some "1" | 1 => some "2" | 2 => some "3" | 3 => some "4"
  | 4 => some "5" | 5 => some "6" | 9 => some "max" | 10 => some "min"
  | 12 => some "kenter" | 13 => some "full" | 14 => some "poker" | 15 => some "60"
  | _ => none

def KEY_TO_ROW (key : String) : Option Nat :=
  (WRITABLE_ROWS.find? (fun r => WRITABLE_MAP r == some key))

def WRITABLE_CELLS_PER_PLAYER : Nat := 48

/-- The four fill-order columns; the board key `f"{row},{col}"` of the source
becomes the pair `(row, col)`. -/
inductive Col where
  | down | free | up | ang
deriving DecidableEq

abbrev Cell := Nat × Col

/-- A scoreboard: the Python dict `{"row,col": score}` as an association list
with unique keys (insertion order preserved, as in a `dict`). -/
abbrev Board := List (Cell × Int)

def Board.lookupCell (b : Board) (k : Cell) : Option Int :=
  (b.find? (fun e => e.1 = k)).map (·.2)

def Board.containsCell (b : Board) (k : Cell) : Bool :=
  (b.find? (fun e => e.1 = k)).isSome

def Board.setCell (b : Board) (k : Cell) (v : Int) : Board :=
  match b with
  | [] => [(k, v)]
  | e :: rest => if e.1 = k then (k, v) :: rest else e :: Board.setCell rest k v

/-- `dict.pop(key, None)`. -/
def Board.eraseCell (b : Board) (k : Cell) : Board :=
  b.filter (fun e => ¬ e.1 = k)

/-- Python dict keyed by a player id that may be `None`
(`player_id` is `None` on a connection that never joined). -/
abbrev AMap (α : Type) := List (Option String × α)

def alookup {α : Type} (m : AMap α) (k : Option String) : Option α :=
  (m.find? (fun e => e.1 = k)).map (·.2)

def aset {α : Type} (m : AMap α) (k : Option String) (v : α) : AMap α :=
  match m with
  | [] => [(k, v)]
  | e :: rest => if e.1 = k then (k, v) :: rest else e :: aset rest k v

/-- `dict.setdefault(k, d)`: the map after the call (value untouched if present). -/
def asetd {α : Type} (m : AMap α) (k : Option String) (d : α) : AMap α :=
  match m with
  | [] => [(k, d)]
  | e :: rest => if e.1 = k then e :: rest else e :: asetd rest k d

/-! ## Room state -/

/-- Room mode: `_mode` is `"2"`, `"3"`, … (individual play, `n` expected
players) or `"2v2"` (team play). -/
inductive Mode where
  | players (n : Nat)
  | team2v2
deriving DecidableEq

/-- `_turn`: `{"player_id": …, "roll_index": …, "first4oak_roll": …}`. -/
structure Turn where
  player_id : Option String
  roll_index : Nat
  first4oak_roll : Option Nat
deriving DecidableEq

/-- `_correction`: `{"active": False}` resp. the frozen move data. -/
structure Corr where
  active : Bool
  player_id : Option String
  dice : List Nat
  roll_index : Nat
  first4oak_roll : Option Nat
deriving DecidableEq

def Corr.inactive : Corr := ⟨false, none, [], 0, none⟩

/-- `_last_meta[pid]`. -/
structure LastMeta where
  announced : Option String
  roll_index : Nat
  first4oak_roll : Option Nat
deriving DecidableEq

/-- The per-room game dict of `main.py` (fields a claim can observe). -/
structure Game where
  mode : Mode
  expected : Nat
  started : Bool
  finished : Bool
  aborted : Bool
  passphrase : Option String
  players : List (String × String)          -- (id, name), join order
  turn : Option Turn
  dice : List Nat
  holds : List Bool
  rolls_used : Nat
  rolls_max : Nat
  scoreboards : AMap Board                  -- pid -> board (individual modes)
  team_of : List (String × String)          -- pid -> "A"/"B"
  teamA_members : List String
  teamB_members : List String
  scoreboards_by_team : AMap Board          -- "A"/"B" -> board (2v2)
  announced_row4 : Option String
  announced_by : Option String
  announced_board : Option String
  correction : Corr
  results : Option (List (String × Int))
  last_activity : Option Nat
  last_write : AMap (Nat × Col × Nat)       -- pid -> (row, col, rolls_used)
  last_dice : AMap (List Nat)
  last_meta : AMap LastMeta
deriving DecidableEq

def is_team_mode (g : Game) : Bool := g.mode = Mode.team2v2

/-- `new_game`: the freshly created room dict. -/
def new_game (mode : Mode) (pass : Option String) (createdAt : Nat) : Game where
  mode := mode
  expected := match mode with | .team2v2 => 4 | .players n => n
  started := false
  finished := false
  aborted := false
  passphrase := pass
  players := []
  turn := none
  dice := [0, 0, 0, 0, 0]
  holds := [false, false, false, false, false]
  rolls_used := 0
  rolls_max := 3
  scoreboards := []
  team_of := []
  teamA_members := []
  teamB_members := []
  scoreboards_by_team := []
  announced_row4 := none
  announced_by := none
  announced_board := none
  correction := Corr.inactive
  results := none
  last_activity := some createdAt
  last_write := []
  last_dice := []
  last_meta := []

/-- `board_key_for_actor`: team id in 2v2 (`"A"` fallback), else the player id. -/
def board_key_for_actor (g : Game) (pid : Option String) : Option String :=
  if is_team_mode g then
    some ((pid.bind (fun p => (g.team_of.find? (fun e => e.1 = p)).map (·.2))).getD "A")
  else pid

/-- The board an actor writes to (missing board read as empty). -/
def boardFor (g : Game) (pid : Option String) : Board :=
  if is_team_mode g then
    (alookup g.scoreboards_by_team (board_key_for_actor g pid)).getD []
  else (alookup g.scoreboards pid).getD []

/-- `_filled_rows_for` (membership view of the returned set). -/
def filledRowsFor (g : Game) (pid : Option String) (col : Col) : List Nat :=
  ((boardFor g pid).filter (fun e => e.1.2 = col)).map (fun e => e.1.1)

/-- `_next_required_row`. -/
def next_required_row (col : Col) (filled : List Nat) : Option Nat :=
  let order := if col = Col.down then WRITABLE_ROWS else WRITABLE_ROWS.reverse
  order.find? (fun r => r ∉ filled)

/-- `_remaining_cells_for` (an `Int`, as Python subtraction can go negative
on a board that somehow exceeds 48 entries). -/
def remaining_cells_for (g : Game) (pid : Option String) : Int :=
  (WRITABLE_CELLS_PER_PLAYER : Int) - ((boardFor g pid).length : Int)

def is_last_turn_for (g : Game) (pid : Option String) : Bool :=
  remaining_cells_for g pid = 1

/-- `_set_roll_cap_for_current_turn`. -/
def set_roll_cap (g : Game) : Game :=
  match g.turn with
  | some t =>
      { g with rolls_max :=
          if t.player_id ≠ none ∧ is_last_turn_for g t.player_id then 5 else 3 }
  | none => { g with rolls_max := 3 }

/-! ## Error replies

Every distinct user-facing rejection string of `ws_game` becomes one
constructor (carrying the data interpolated into the f-string). -/

inductive Err where
  | spectatorOnly                        -- "Nur fuer Spieler"
  | wrongPassphrase                      -- "Falsche Passphrase"
  | notYourTurn                          -- "Nicht an der Reihe"
  | duringCorrection                     -- "Während Korrektur nicht erlaubt"
  | noRollsLeft                          -- "Keine Würfe mehr"
  | announceOnlyAfterFirstRoll           -- "Ansage (oder Änderung) nur direkt nach Wurf 1"
  | invalidAnnounceField                 -- "Ungültiges Ansage-Feld"
  | announceCellFilled (field : String)  -- "Ansage nicht möglich: Feld … bereits befüllt"
  | unannounceOnlyAfterFirstRoll         -- "Ansage nur direkt nach Wurf 1 zurückziehbar"
  | noAnnounceActive                     -- "Keine Ansage aktiv"
  | notWritableRow                       -- "Dieses Feld ist nicht beschreibbar"
  | onlyAngAllowed (field : String)      -- "Ansage aktiv: Nur ❗-Spalte … erlaubt"
  | announcedMismatch (want got : String) -- "Angesagt ist …, nicht …"
  | columnFull                           -- "Reihe bereits voll"
  | nextRequired (row : Nat)             -- "In dieser Reihe ist als Nächstes Zeile … erlaubt"
  | unknownColumn                        -- "Unbekannte Spalte"
  | cellOccupied                         -- "Dieses Feld ist bereits befüllt"
  | correctionDisabled1P                 -- "Korrekturmodus ist im 1-Spieler-Modus deaktiviert"
  | noLastEntry                          -- "Kein letzter Eintrag vorhanden"
  | correctionAnnouncedMove              -- "Korrektur nicht erlaubt (Ansage-Zug)"
  | correctionOnlyAfterYourMove          -- "Korrektur nur direkt nach deinem Zug"
  | correctionAlreadyRolled              -- "Korrektur nicht möglich: Es wurde bereits weiter gewürfelt"
  | noLastDice                           -- "Kein letzter Wurf vorhanden"
  | noCorrectionActive                   -- "Keine Korrektur aktiv"
  | targetOccupied                       -- "Ziel-Feld bereits befüllt"
  | noEmoji                              -- "Kein Emoji"
  | notJoined                            -- "Nicht beigetreten"
  | unknownAction                        -- "Unbekannte Aktion: …"
deriving DecidableEq

/-- Reply to the requesting connection: `ok` for every non-error outcome
(snapshot broadcast, silent drop, personal snapshot), `err` for the single
`{"error": …}` reply. -/
inductive Reply where
  | ok
  | err (e : Err)
deriving DecidableEq

/-! ## `can_write_now` -/

/-- `can_write_now(g, pid, row, col, during_turn_announce=…)`;
`none` = allowed, `some e` = rejected with reason `e`. -/
def can_write_now (g : Game) (pid : Option String) (row : Nat) (col : Col)
    (announce : Option String) : Option Err :=
  if row ∉ WRITABLE_ROWS then some Err.notWritableRow
  else
    let field_key := (WRITABLE_MAP row).getD ""
    if remaining_cells_for g pid = 1 then none
    else
      match announce with
      | some a =>
          if ¬ is_last_turn_for g pid then
            if col ≠ Col.ang then some (Err.onlyAngAllowed a)
            else if a ≠ field_key then some (Err.announcedMismatch a field_key)
            else none
          else
            -- `during_turn_announce and not _is_last_turn_for(...)` false:
            -- fall through to the per-column rules below.
            match col with
            | Col.free => none
            | Col.ang =>
                if is_last_turn_for g pid then none
                else if g.rolls_used = 1 then none
                else if a ≠ field_key then some (Err.announcedMismatch a field_key)
                else none
            | _ =>
                let filled := filledRowsFor g pid col
                match next_required_row col filled with
                | none => some Err.columnFull
                | some next => if row ≠ next then some (Err.nextRequired next) else none
      | none =>
          match col with
          | Col.free => none
          | Col.ang =>
              if is_last_turn_for g pid then none
              else if g.rolls_used = 1 then none
              else some Err.noAnnounceActive
          | _ =>
              let filled := filledRowsFor g pid col
              match next_required_row col filled with
              | none => some Err.columnFull
              | some next => if row ≠ next then some (Err.nextRequired next) else none

/-! ## Timeout sweep and snapshot side effects -/

def GAME_TIMEOUT : Nat := 600

/-- `touch(g)`. -/
def touch (now : Nat) (g : Game) : Game := { g with last_activity := some now }

/-- `check_timeout_and_abort(g)`: returns the (possibly aborted) room and
whether it fired. -/
def check_timeout_and_abort (now : Nat) (g : Game) : Game × Bool :=
  match g.last_activity with
  | none => ({ g with last_activity := some now }, false)
  | some last =>
      if g.finished then (g, false)
      else if now - last > GAME_TIMEOUT then
        ({ g with aborted := true, started := false, finished := true,
                  results := none }, true)
      else (g, false)

/-! ## Final totals (`rules.compute_row_subtotals` … `_compute_results_for_snapshot`) -/

def rowGet (row : List (String × Int)) (k : String) : Int :=
  ((row.find? (fun e => e.1 = k)).map (·.2)).getD 0

def rowHas (row : List (String × Int)) (k : String) : Bool :=
  (row.find? (fun e => e.1 = k)).isSome

/-- `compute_row_subtotals(row)["total_column"]` (non-hardcore threshold 60). -/
def total_column (row : List (String × Int)) : Int :=
  let sum_top := rowGet row "1" + rowGet row "2" + rowGet row "3" +
                 rowGet row "4" + rowGet row "5" + rowGet row "6"
  let bonus_top : Int := if 60 ≤ sum_top then 30 else 0
  let sum_maxmin : Int :=
    if rowHas row "1" ∧ rowHas row "max" ∧ rowHas row "min" then
      rowGet row "1" * (rowGet row "max" - rowGet row "min")
    else 0
  let sum_bottom := rowGet row "kenter" + rowGet row "full" +
                    rowGet row "poker" + rowGet row "60"
  sum_top + bonus_top + sum_maxmin + sum_bottom

def colToRowIdx (c : Col) : Nat :=
  match c with | Col.down => 1 | Col.free => 2 | Col.up => 3 | Col.ang => 4

/-- `_rows_from_scoreboard(sb)[idx]` with the `setdefault` (first write wins)
semantics of the source. -/
def rows_from_scoreboard (sb : Board) (idx : Nat) : List (String × Int) :=
  sb.foldl (fun acc e =>
    match WRITABLE_MAP e.1.1 with
    | none => acc
    | some key =>
        if colToRowIdx e.1.2 = idx then
          if rowHas acc key then acc else acc ++ [(key, e.2)]
        else acc) []

/-- `compute_overall(rows)["overall"]["overall_total"]`. -/
def overall_total (sb : Board) : Int :=
  total_column (rows_from_scoreboard sb 1) + total_column (rows_from_scoreboard sb 2) +
  total_column (rows_from_scoreboard sb 3) + total_column (rows_from_scoreboard sb 4)

/-- `_compute_final_totals`: board id -> total. -/
def final_total_for (g : Game) (key : Option String) : Int :=
  if is_team_mode g then overall_total ((alookup g.scoreboards_by_team key).getD [])
  else overall_total ((alookup g.scoreboards key).getD [])

/-- `_compute_results_for_snapshot`: (display name, total), sorted by total
descending (stable, as `list.sort`). -/
def compute_results_for_snapshot (g : Game) : List (String × Int) :=
  if is_team_mode g then
    let base := [("Team A", final_total_for g (some "A")),
                 ("Team B", final_total_for g (some "B"))]
    base.insertionSort (fun a b => b.2 ≤ a.2)
  else
    let base := g.players.map (fun p => (p.2, final_total_for g (some p.1)))
    base.insertionSort (fun a b => b.2 ≤ a.2)

/-- The state mutations performed by building a snapshot: the opportunistic
timeout sweep, then the results computation for a finished room with falsy
(`None` or `[]`) results. -/
def snapshotEffect (now : Nat) (g : Game) : Game :=
  let g := (check_timeout_and_abort now g).1
  if g.finished ∧ (g.results = none ∨ g.results = some []) then
    { g with results := some (compute_results_for_snapshot g) }
  else g

/-- `_is_game_finished`. -/
def is_game_finished (g : Game) : Bool :=
  if g.players = [] then false
  else if is_team_mode g then
    WRITABLE_CELLS_PER_PLAYER ≤ ((alookup g.scoreboards_by_team (some "A")).getD []).length ∧
    WRITABLE_CELLS_PER_PLAYER ≤ ((alookup g.scoreboards_by_team (some "B")).getD []).length
  else
    g.players.all (fun p =>
      (WRITABLE_CELLS_PER_PLAYER : Int) - ((alookup g.scoreboards (some p.1)).getD []).length = 0)

/-- `next_turn`. -/
def next_turn (g : Game) (current : Option String) : Option String :=
  let ids := g.players.map (·.1)
  match ids with
  | [] => none
  | first :: _ =>
      match current with
      | some c =>
          match ids.indexOf? c with
          | some i => ids.get? ((i + 1) % ids.length)
          | none => some first
      | none => some first

/-! ## Poker point gates (`write_field` / `write_field_correction` bodies) -/

/-- Python truthiness of an optional roll index (`None` and `0` are falsy). -/
def truthyIdx (o : Option Nat) : Bool :=
  match o with | some k => k != 0 | none => false

/-- Python truthiness of an optional string (`None` and `""` are falsy). -/
def truthyStr (o : Option String) : Bool :=
  match o with | some s => s != "" | none => false

/-- The `allowed_points` computation of the normal `write_field` poker branch
(live turn metadata, with the `first4_eff` fallback). -/
def poker_allowed_points_live (t : Turn) (dice : List Nat)
    (announced : Option String) (col : Col) : Bool :=
  let roll_idx := t.roll_index
  let has4 := has_n_of_a_kind dice 4
  let has5 := has_n_of_a_kind dice 5
  let announced_poker : Bool := announced = some "poker"
  let first4_eff : Option Nat :=
    if has4 && !has5 && (t.first4oak_roll == none) then some roll_idx
    else t.first4oak_roll
  let base := has5 || (has4 && truthyIdx first4_eff &&
    (roll_idx == first4_eff.getD 0))
  if col = Col.ang then
    (announced_poker && (has4 || has5)) || (!announced_poker && base)
  else base

/-- The `allowed_points` computation of the correction path (frozen metadata;
falsy check `not first4_eff` also treats a stored `0` as unset, and the
effective roll index is taken from `first4oak_roll` when present). -/
def poker_allowed_points_corr (corr_roll_idx : Nat) (corr_first4 : Option Nat)
    (dice : List Nat) (announced : Option String) (col : Col) : Bool :=
  let has4 := has_n_of_a_kind dice 4
  let has5 := has_n_of_a_kind dice 5
  let first4_eff : Option Nat :=
    if has4 && !has5 && !(truthyIdx corr_first4) then some corr_roll_idx
    else corr_first4
  let effective_roll_idx :=
    if truthyIdx first4_eff then first4_eff.getD 0 else corr_roll_idx
  if col = Col.ang && (announced == some "poker") then has4 || has5
  else has5 || (has4 && truthyIdx first4_eff &&
    (effective_roll_idx == first4_eff.getD 0))

/-! ## The action step function (`ws_game` message loop) -/

structure Conn where
  player_id : Option String
  is_spectator : Bool
deriving DecidableEq

inductive Act where
  | join_game (newPid name pass : String)
  | spectate_game (pass : String)
  | rejoin_game (pid : String)
  | set_hold (holds : List Bool)
  | roll_dice (outcome : List Nat)
  | announce_row4 (field : String)
  | unannounce_row4
  | write_field (row : Nat) (col : Col) (strike : Bool)
  | request_correction
  | cancel_correction
  | write_field_correction (row : Nat) (col : Col) (strike : Bool)
  | send_emoji (emoji : String)
  | chat_message (txt : String)
  | end_game
  | unknown
deriving DecidableEq

/-- Actions the spectator gate lets through. -/
def spectatorAllowed (a : Act) : Bool :=
  match a with
  | .send_emoji _ | .chat_message _ | .rejoin_game _ => true
  | _ => false

/-- `g["_dice"] or [0, 0, 0, 0, 0]`. -/
def diceOr (d : List Nat) : List Nat := if d = [] then [0, 0, 0, 0, 0] else d

/-- Re-roll the non-held dice with the given outcome values. -/
def rollNewDice (dice : List Nat) (holds : List Bool) (outcome : List Nat) : List Nat :=
  (List.range 5).map (fun i =>
    if holds.getD i false then (diceOr dice).getD i 0 else outcome.getD i 0)

/-- Write back the actor's board (creating the entry à la `setdefault`). -/
def setBoardFor (g : Game) (pid : Option String) (b : Board) : Game :=
  if is_team_mode g then
    { g with scoreboards_by_team := aset g.scoreboards_by_team (board_key_for_actor g pid) b }
  else { g with scoreboards := aset g.scoreboards pid b }

/-- `assign_team_for_join` (called right after the append). -/
def assign_team_for_join (g : Game) (pid : String) : Game :=
  let order := g.players.map (·.1)
  let idx := (order.indexOf? pid).getD order.length
  let team := if idx % 2 = 0 then "A" else "B"
  let team_of' :=
    if (g.team_of.find? (fun e => e.1 = pid)).isSome then
      g.team_of.map (fun e => if e.1 = pid then (pid, team) else e)
    else g.team_of ++ [(pid, team)]
  let g := { g with team_of := team_of' }
  let g :=
    if team = "A" then
      if g.teamA_members.contains pid then g
      else { g with teamA_members := g.teamA_members ++ [pid] }
    else
      if g.teamB_members.contains pid then g
      else { g with teamB_members := g.teamB_members ++ [pid] }
  { g with scoreboards_by_team := asetd g.scoreboards_by_team (some team) [] }

/-- `touch(g)` followed by the snapshot broadcast (every successful mutation). -/
def finishSnap (now : Nat) (g : Game) : Game × Reply :=
  (snapshotEffect now (touch now g), Reply.ok)

/-- The effective strike flag of a normal `write_field` (the forced silent
strike of the poker timing rule included). -/
def wf_strike (strike : Bool) (fld : String) (t : Turn) (g : Game) (col : Col) : Bool :=
  if fld = "poker" then
    let prospective := score_field_value "poker" (diceOr g.dice)
    if 0 < prospective ∧
       poker_allowed_points_live t g.dice g.announced_row4 col = false
    then true else strike
  else strike

/-- The value a normal `write_field` commits. -/
def wf_value (strike : Bool) (fld : String) (t : Turn) (g : Game) (col : Col) : Int :=
  if wf_strike strike fld t g col then 0 else score_field_value fld (diceOr g.dice)

/-- The effective strike flag of `write_field_correction` (frozen metadata). -/
def wfc_strike (strike : Bool) (fld : String) (dfe : List Nat) (g : Game)
    (col : Col) : Bool :=
  if fld = "poker" then
    let prospective := score_field_value "poker" dfe
    if 0 < prospective ∧
       poker_allowed_points_corr g.correction.roll_index g.correction.first4oak_roll
         dfe g.announced_row4 col = false
    then true else strike
  else strike

/-- The value `write_field_correction` commits. -/
def wfc_value (strike : Bool) (fld : String) (dfe : List Nat) (g : Game)
    (col : Col) : Int :=
  if wfc_strike strike fld dfe g col then 0 else score_field_value fld dfe

/-- Tail of `write_field_correction` after the order/occupancy checks. -/
def wfc_commit (now : Nat) (conn : Conn) (row : Nat) (col : Col) (strike : Bool)
    (fld : String) (old_rolls : Nat) (dice_for_eval : List Nat) (g : Game) :
    Game × Reply :=
  let val : Int := wfc_value strike fld dice_for_eval g col
  let g := setBoardFor g conn.player_id
    ((boardFor g conn.player_id).setCell (row, col) val)
  let g := { g with
    last_write := aset g.last_write conn.player_id (row, col, old_rolls),
    correction := Corr.inactive,
    dice := [0, 0, 0, 0, 0] }
  finishSnap now g

/-- One handled action (dispatch body of the `ws_game` receive loop, after the
timeout sweep and the spectator gate). -/
def handle (now : Nat) (conn : Conn) (a : Act) (g : Game) : Game × Reply :=
  match a with
  | .join_game newPid name pass =>
      if truthyStr g.passphrase ∧ some pass ≠ g.passphrase then
        (g, .err .wrongPassphrase)
      else
        let g := { g with players := g.players ++ [(newPid, name)],
                          scoreboards := aset g.scoreboards (some newPid) [] }
        let g := if is_team_mode g then assign_team_for_join g newPid else g
        let g :=
          if g.players.length = g.expected ∧ ¬ g.started then
            let g' := { g with started := true,
                               turn := some ⟨g.players.head?.map (·.1), 0, none⟩ }
            set_roll_cap g'
          else g
        finishSnap now g
  | .spectate_game pass =>
      if truthyStr g.passphrase ∧ some pass ≠ g.passphrase then
        (g, .err .wrongPassphrase)
      else finishSnap now g
  | .rejoin_game _ => finishSnap now g
  | .set_hold hs => finishSnap now { g with holds := hs.take 5 }
  | .roll_dice outcome =>
      match g.turn with
      | none => (g, .err .notYourTurn)
      | some t =>
          if t.player_id ≠ conn.player_id then (g, .err .notYourTurn)
          else if g.correction.active then (g, .err .duringCorrection)
          else if g.rolls_max ≤ g.rolls_used then (g, .err .noRollsLeft)
          else
            let dice' := rollNewDice g.dice g.holds outcome
            let t' : Turn := { t with roll_index := t.roll_index + 1 }
            let t'' :=
              if t'.first4oak_roll = none ∧ has_n_of_a_kind dice' 4 then
                { t' with first4oak_roll := some t'.roll_index }
              else t'
            finishSnap now
              { g with dice := dice', rolls_used := g.rolls_used + 1, turn := some t'' }
  | .announce_row4 field =>
      match g.turn with
      | none => (g, .err .notYourTurn)
      | some t =>
          if t.player_id ≠ conn.player_id then (g, .err .notYourTurn)
          else if g.correction.active then (g, .err .duringCorrection)
          else if g.rolls_used ≠ 1 then (g, .err .announceOnlyAfterFirstRoll)
          else if field ∉ ROW_FIELDS then (g, .err .invalidAnnounceField)
          else
            let board := boardFor g conn.player_id
            let blocked :=
              match KEY_TO_ROW field with
              | some r => board.containsCell (r, Col.ang)
              | none => false
            if blocked then (g, .err (.announceCellFilled field))
            else
              finishSnap now { g with
                announced_row4 := some field,
                announced_by := conn.player_id,
                announced_board := board_key_for_actor g conn.player_id }
  | .unannounce_row4 =>
      match g.turn with
      | none => (g, .err .notYourTurn)
      | some t =>
          if t.player_id ≠ conn.player_id then (g, .err .notYourTurn)
          else if g.correction.active then (g, .err .duringCorrection)
          else if g.rolls_used ≠ 1 then (g, .err .unannounceOnlyAfterFirstRoll)
          else if ¬ truthyStr g.announced_row4 then (g, .err .noAnnounceActive)
          else
            finishSnap now { g with
              announced_row4 := none, announced_by := none, announced_board := none }
  | .write_field row col strike =>
      match g.turn with
      | none => (g, .err .notYourTurn)
      | some t =>
          if t.player_id ≠ conn.player_id then (g, .err .notYourTurn)
          else if g.correction.active then (g, .err .duringCorrection)
          else
            match WRITABLE_MAP row with
            | none => (g, .err .notWritableRow)
            | some fld =>
                match can_write_now g conn.player_id row col g.announced_row4 with
                | some e => (g, .err e)
                | none =>
                    let board := boardFor g conn.player_id
                    if board.containsCell (row, col) then (g, .err .cellOccupied)
                    else
                      let value : Int := wf_value strike fld t g col
                      let g := setBoardFor g conn.player_id
                        (board.setCell (row, col) value)
                      let g := { g with
                        last_write := aset g.last_write conn.player_id (row, col, g.rolls_used),
                        last_dice := aset g.last_dice conn.player_id (diceOr g.dice),
                        last_meta := aset g.last_meta conn.player_id
                          ⟨g.announced_row4, t.roll_index, t.first4oak_roll⟩ }
                      let g := { g with
                        dice := [0, 0, 0, 0, 0],
                        holds := List.replicate 5 false,
                        rolls_used := 0,
                        announced_row4 := none, announced_by := none,
                        announced_board := none,
                        turn := some ⟨next_turn g conn.player_id, 0, none⟩ }
                      let g := set_roll_cap g
                      let g :=
                        if is_game_finished g then
                          { g with started := false, finished := true }
                        else g
                      finishSnap now g
  | .request_correction =>
      if g.expected = 1 then (g, .err .correctionDisabled1P)
      else if g.correction.active then (g, .ok)   -- bare `continue`, no error
      else if alookup g.last_write conn.player_id = none then (g, .err .noLastEntry)
      else if truthyStr ((alookup g.last_meta conn.player_id).getD ⟨none, 0, none⟩).announced then
        (g, .err .correctionAnnouncedMove)
      else
        match g.turn with
        | none => (g, .err .correctionOnlyAfterYourMove)
        | some t =>
            let is_single := ¬ is_team_mode g ∧ g.expected = 1
            if t.player_id = conn.player_id ∧ ¬ is_single then
              (g, .err .correctionOnlyAfterYourMove)
            else if 0 < g.rolls_used then (g, .err .correctionAlreadyRolled)
            else
              let ld := (alookup g.last_dice conn.player_id).getD []
              if ld = [] then (g, .err .noLastDice)
              else
                let meta := (alookup g.last_meta conn.player_id).getD ⟨none, 0, none⟩
                finishSnap now { g with
                  correction :=
                    ⟨true, conn.player_id, ld, meta.roll_index, meta.first4oak_roll⟩,
                  dice := ld }
  | .cancel_correction =>
      if g.expected = 1 then (g, .err .correctionDisabled1P)
      else
        finishSnap now { g with correction := Corr.inactive, dice := [0, 0, 0, 0, 0] }
  | .write_field_correction row col strike =>
      if g.expected = 1 then (g, .err .correctionDisabled1P)
      else if ¬ (g.correction.active ∧ g.correction.player_id = conn.player_id) then
        (g, .err .noCorrectionActive)
      else
        match WRITABLE_MAP row with
        | none => (g, .err .notWritableRow)
        | some fld =>
            match alookup g.last_write conn.player_id with
            | none => (g, .err .noLastEntry)
            | some (old_row, old_col, old_rolls) =>
                let dice_for_eval :=
                  if g.correction.dice ≠ [] then g.correction.dice else diceOr g.dice
                -- the pop of the old cell happens BEFORE the remaining checks
                let g := setBoardFor g conn.player_id
                  ((boardFor g conn.player_id).eraseCell (old_row, old_col))
                if col = Col.down ∨ col = Col.up then
                  match next_required_row col (filledRowsFor g conn.player_id col) with
                  | none => (g, .err .columnFull)
                  | some nextr =>
                      if row ≠ nextr ∧ ¬ (row = old_row ∧ col = old_col) then
                        (g, .err (.nextRequired nextr))
                      else if (boardFor g conn.player_id).containsCell (row, col) then
                        (g, .err .targetOccupied)
                      else wfc_commit now conn row col strike fld old_rolls dice_for_eval g
                else
                  if (boardFor g conn.player_id).containsCell (row, col) then
                    (g, .err .targetOccupied)
                  else wfc_commit now conn row col strike fld old_rolls dice_for_eval g
  | .send_emoji emoji =>
      if emoji = "" then (g, .err .noEmoji)
      else if conn.player_id.isSome ∨ conn.is_spectator then
        (touch now g, .ok)          -- touch + payload broadcast (no snapshot)
      else (g, .err .notJoined)
  | .chat_message txt =>
      if txt = "" then (g, .ok)
      else (touch now g, .ok)       -- chat broadcast (no snapshot), then touch
  | .end_game =>
      finishSnap now { g with
        aborted := true, results := none, started := false, finished := true }
  | .unknown => (g, .err .unknownAction)

/-- The full per-message step: opportunistic timeout sweep, spectator gate,
then the action dispatch. -/
def step (now : Nat) (conn : Conn) (a : Act) (g : Game) : Game × Reply :=
  let gf := check_timeout_and_abort now g
  if gf.2 then (snapshotEffect now gf.1, .ok)
  else if conn.is_spectator ∧ ¬ spectatorAllowed a then (gf.1, .err .spectatorOnly)
  else handle now conn a gf.1

structure Event where
  now : Nat
  conn : Conn
  act : Act

def run (g : Game) : List Event → Game
  | [] => g
  | e :: rest => run (step e.now e.conn e.act g).1 rest

/-- A room state the server can actually be in: some creation parameters
followed by any sequence of inbound events. -/
def Reachable (g : Game) : Prop :=
  ∃ (mode : Mode) (pass : Option String) (t0 : Nat) (evs : List Event),
    g = run (new_game mode pass t0) evs

/-! ## Claim-level predicates -/

/-- The timing condition of the specification for committing nonzero poker
points through `write_field`: five-of-a-kind, or four-of-a-kind in exactly the
roll recorded as the turn's first four-of-a-kind, or — in the announced column
under an active poker announcement — four-or-five-of-a-kind in any roll. -/
def pokerClaimCondB (g : Game) (col : Col) : Bool :=
  has_n_of_a_kind g.dice 5 ||
  (has_n_of_a_kind g.dice 4 &&
    (match g.turn with
     | some t => t.first4oak_roll == some t.roll_index
     | none => false)) ||
  (decide (col = Col.ang) && (g.announced_row4 == some "poker") &&
    has_n_of_a_kind g.dice 4)

/-- The state after `write_field_correction` has removed the requester's
previous cell (the `pop` that precedes the order/occupancy checks). -/
def popOldCell (g : Game) (pid : Option String) : Game :=
  match alookup g.last_write pid with
  | some (r, c, _) => setBoardFor g pid ((boardFor g pid).eraseCell (r, c))
  | none => g

/-- Uniform access to either scoreboard map (individual / team boards). -/
def boardAt (g : Game) (team : Bool) (bkey : Option String) : Board :=
  if team then (alookup g.scoreboards_by_team bkey).getD []
  else (alookup g.scoreboards bkey).getD []

/-! ## Concrete rooms used as witnesses and counterexamples -/

def connNone : Conn := ⟨none, false⟩
def connP1 : Conn := ⟨some "p1", false⟩
def connP2 : Conn := ⟨some "p2", false⟩

/-- Two players join a fresh 2-player room; the game starts, `p1` to act. -/
def twoPlayerStart : List Event :=
  [⟨0, connNone, Act.join_game "p1" "Alice" ""⟩,
   ⟨0, connNone, Act.join_game "p2" "Bob" ""⟩]

def startedRoom : Game := run (new_game (.players 2) none 0) twoPlayerStart

/-- `p1` rolls four threes on roll 1 of their turn. -/
def midRollRoom : Game :=
  run startedRoom [⟨0, connP1, Act.roll_dice [3, 3, 3, 3, 5]⟩]

/-- `p1` rolls four-of-a-kind on roll 1, holds everything, and re-rolls:
roll index 2, first four-of-a-kind still recorded at roll 1. -/
def lateFourRoom : Game :=
  run startedRoom
    [⟨0, connP1, Act.roll_dice [3, 3, 3, 3, 5]⟩,
     ⟨0, connP1, Act.set_hold [true, true, true, true, true]⟩,
     ⟨0, connP1, Act.roll_dice [6, 6, 6, 6, 6]⟩]

/-- The regression scenario of the spec: four-of-a-kind (`face`, plus one
`other` die) on roll 1, a mistaken write of "kenter" in the free column on
roll 1, then a correction request.  `correctionRoom face other` is the state
with the correction active and the move's dice and metadata frozen. -/
def correctionEvents (face other : Nat) : List Event :=
  twoPlayerStart ++
  [⟨0, connP1, Act.roll_dice [face, face, face, face, other]⟩,
   ⟨0, connP1, Act.write_field 12 Col.free false⟩,
   ⟨0, connP1, Act.request_correction⟩]

def correctionRoom (face other : Nat) : Game :=
  run (new_game (.players 2) none 0) (correctionEvents face other)

/-- A correction of the first cell of the top-down column is pending
(`p1` wrote row 0 of `down` on roll 1, then requested a correction). -/
def downCorrectionRoom : Game :=
  run (new_game (.players 2) none 0)
    (twoPlayerStart ++
     [⟨0, connP1, Act.roll_dice [1, 2, 3, 4, 5]⟩,
      ⟨0, connP1, Act.write_field 0 Col.down false⟩,
      ⟨0, connP1, Act.request_correction⟩])

/-- A room in which `p1` has already filled (12, free) and is about to target
it again on their next turn. -/
def occupiedRoom : Game :=
  run (new_game (.players 2) none 0)
    (twoPlayerStart ++
     [⟨0, connP1, Act.roll_dice [1, 2, 3, 4, 5]⟩,
      ⟨0, connP1, Act.write_field 12 Col.free false⟩,
      ⟨0, connP2, Act.roll_dice [1, 2, 3, 4, 5]⟩,
      ⟨0, connP2, Act.write_field 0 Col.free false⟩,
      ⟨0, connP1, Act.roll_dice [2, 2, 3, 4, 5]⟩])

/-- The state invariant of reachable rooms that underpins the poker timing
rule: before the first start the dice are blank, a running turn implies a full
room, recorded first-four-of-a-kind roll indices are positive, and outside
correction mode four matching dice (short of a five-of-a-kind) are always
accounted for in the turn's `first4oak_roll`. -/
def GameInv (g : Game) : Prop :=
  (g.turn = none → g.dice = [0, 0, 0, 0, 0]) ∧
  (∀ t, g.turn = some t → g.expected ≤ g.players.length) ∧
  (∀ t k, g.turn = some t → t.first4oak_roll = some k → 1 ≤ k) ∧
  (g.correction.active = false → has_n_of_a_kind g.dice 4 = true →
     has_n_of_a_kind g.dice 5 = false →
     ∃ t k, g.turn = some t ∧ t.first4oak_roll = some k)

/-! ## Basic lemmas about the embedded primitives -/

theorem touch_eq (now : Nat) (g : Game) :
    touch now g = { g with last_activity := some now } := rfl

theorem cta_cases (now : Nat) (g : Game) :
    check_timeout_and_abort now g = (g, false) ∨
    check_timeout_and_abort now g = ({ g with last_activity := some now }, false) ∨
    check_timeout_and_abort now g =
      ({ g with aborted := true, started := false, finished := true,
                results := none }, true) := by
  unfold check_timeout_and_abort
  rcases hla : g.last_activity with _ | l
  · right; left; rfl
  · by_cases hf : g.finished
    · left; simp [hf]
    · by_cases ht : now - l > GAME_TIMEOUT
      · right; right; simp [hf, ht]
      · left; simp [hf, ht]

theorem cta_fired_eq (now : Nat) (g : Game)
    (h : (check_timeout_and_abort now g).2 = true) :
    (check_timeout_and_abort now g).1 =
      { g with aborted := true, started := false, finished := true, results := none } := by
  rcases cta_cases now g with hc | hc | hc <;> rw [hc] at h ⊢ <;> simp_all

theorem cta_not_fired_eq (now : Nat) (g : Game) (l : Nat)
    (hla : g.last_activity = some l)
    (h : (check_timeout_and_abort now g).2 = false) :
    (check_timeout_and_abort now g).1 = g := by
  unfold check_timeout_and_abort at *
  rw [hla] at h ⊢
  by_cases hf : g.finished
  · simp [hf]
  · by_cases ht : now - l > GAME_TIMEOUT
    · simp [hf, ht] at h
    · simp [hf, ht]

theorem se_cases (now : Nat) (g : Game) :
    snapshotEffect now g = (check_timeout_and_abort now g).1 ∨
    snapshotEffect now g =
      { (check_timeout_and_abort now g).1 with
          results := some (compute_results_for_snapshot (check_timeout_and_abort now g).1) } := by
  unfold snapshotEffect
  set g1 := (check_timeout_and_abort now g).1 with hg1
  by_cases hc : g1.finished = true ∧ (g1.results = none ∨ g1.results = some [])
  · right; rw [if_pos hc]
  · left; rw [if_neg hc]

theorem alookup_cons {α : Type} (e : Option String × α) (l : AMap α)
    (k : Option String) :
    alookup (e :: l) k = if e.1 = k then some e.2 else alookup l k := by
  by_cases he : e.1 = k <;> simp [alookup, List.find?, he]

theorem alookup_aset_self {α : Type} (m : AMap α) (k : Option String) (v : α) :
    alookup (aset m k v) k = some v := by
  induction m with
  | nil => simp [aset, alookup_cons]
  | cons e rest ih =>
      by_cases he : e.1 = k
      · simp [aset, he, alookup_cons]
      · simp [aset, he, alookup_cons, ih]

theorem alookup_aset_ne {α : Type} (m : AMap α) (k k' : Option String) (v : α)
    (h : k' ≠ k) : alookup (aset m k v) k' = alookup m k' := by
  induction m with
  | nil => simp [aset, alookup_cons, alookup, Ne.symm h]
  | cons e rest ih =>
      by_cases he : e.1 = k
      · rw [show aset (e :: rest) k v = (k, v) :: rest by simp [aset, he]]
        rw [alookup_cons, alookup_cons, if_neg (Ne.symm h)]
        by_cases he' : e.1 = k'
        · exact absurd (he'.symm.trans he) h
        · rw [if_neg he']
      · rw [show aset (e :: rest) k v = e :: aset rest k v by simp [aset, he]]
        rw [alookup_cons, alookup_cons, ih]

theorem alookup_asetd_self {α : Type} (m : AMap α) (k : Option String) (d : α) :
    alookup (asetd m k d) k = some ((alookup m k).getD d) := by
  induction m with
  | nil => simp [asetd, alookup_cons, alookup]
  | cons e rest ih =>
      by_cases he : e.1 = k
      · simp [asetd, he, alookup_cons]
      · simp [asetd, he, alookup_cons, ih]

theorem alookup_asetd_ne {α : Type} (m : AMap α) (k k' : Option String) (d : α)
    (h : k' ≠ k) : alookup (asetd m k d) k' = alookup m k' := by
  induction m with
  | nil => simp [asetd, alookup_cons, alookup, Ne.symm h]
  | cons e rest ih =>
      by_cases he : e.1 = k
      · simp [asetd, he]
      · simp [asetd, he, alookup_cons, ih]

theorem lookupCell_cons (e : Cell × Int) (l : Board) (k : Cell) :
    Board.lookupCell (e :: l) k = if e.1 = k then some e.2 else l.lookupCell k := by
  by_cases he : e.1 = k <;> simp [Board.lookupCell, List.find?, he]

theorem lookupCell_setCell_self (b : Board) (k : Cell) (v : Int) :
    (b.setCell k v).lookupCell k = some v := by
  induction b with
  | nil => simp [Board.setCell, lookupCell_cons]
  | cons e rest ih =>
      by_cases he : e.1 = k
      · simp [Board.setCell, he, lookupCell_cons]
      · simp [Board.setCell, he, lookupCell_cons, ih]

theorem lookupCell_setCell_ne (b : Board) (k k' : Cell) (v : Int) (h : k' ≠ k) :
    (b.setCell k v).lookupCell k' = b.lookupCell k' := by
  induction b with
  | nil => simp [Board.setCell, lookupCell_cons, Board.lookupCell, Ne.symm h]
  | cons e rest ih =>
      by_cases he : e.1 = k
      · rw [show Board.setCell (e :: rest) k v = (k, v) :: rest by simp [Board.setCell, he]]
        rw [lookupCell_cons, lookupCell_cons, if_neg (Ne.symm h)]
        by_cases he' : e.1 = k'
        · exact absurd (he'.symm.trans he) h
        · rw [if_neg he']
      · rw [show Board.setCell (e :: rest) k v = e :: Board.setCell rest k v by
          simp [Board.setCell, he]]
        rw [lookupCell_cons, lookupCell_cons, ih]

theorem lookupCell_eraseCell_ne (b : Board) (k k' : Cell) (h : k' ≠ k) :
    (b.eraseCell k).lookupCell k' = b.lookupCell k' := by
  induction b with
  | nil => simp [Board.eraseCell]
  | cons e rest ih =>
      by_cases he : e.1 = k
      · rw [show Board.eraseCell (e :: rest) k = Board.eraseCell rest k by
          simp [Board.eraseCell, he]]
        rw [ih, lookupCell_cons]
        by_cases he' : e.1 = k'
        · exact absurd (he'.symm.trans he) h
        · rw [if_neg he']
      · rw [show Board.eraseCell (e :: rest) k = e :: Board.eraseCell rest k by
          simp [Board.eraseCell, he]]
        rw [lookupCell_cons, lookupCell_cons, ih]

theorem lookupCell_eraseCell_self (b : Board) (k : Cell) :
    (b.eraseCell k).lookupCell k = none := by
  induction b with
  | nil => simp [Board.eraseCell, Board.lookupCell]
  | cons e rest ih =>
      by_cases he : e.1 = k
      · rw [show Board.eraseCell (e :: rest) k = Board.eraseCell rest k by
          simp [Board.eraseCell, he]]
        exact ih
      · rw [show Board.eraseCell (e :: rest) k = e :: Board.eraseCell rest k by
          simp [Board.eraseCell, he]]
        rw [lookupCell_cons, if_neg he]
        exact ih

theorem containsCell_iff_lookupCell (b : Board) (k : Cell) :
    b.containsCell k = (b.lookupCell k).isSome := by
  simp [Board.containsCell, Board.lookupCell]

theorem lookupCell_none_of_not_contains (b : Board) (k : Cell)
    (h : b.containsCell k = false) : b.lookupCell k = none := by
  rw [containsCell_iff_lookupCell] at h
  rcases hx : b.lookupCell k with _ | v
  · rfl
  · rw [hx] at h; simp at h

/-! ## Counting lemmas for the poker scorers -/

theorem mem_foldl_faces (dice acc : List Nat) (f : Nat) :
    f ∈ dice.foldl (fun acc d => if d = 0 ∨ d ∈ acc then acc else acc ++ [d]) acc ↔
      f ∈ acc ∨ (f ∈ dice ∧ f ≠ 0) := by
  induction dice generalizing acc with
  | nil => simp
  | cons d rest ih =>
      simp only [List.foldl_cons]
      by_cases hd : d = 0 ∨ d ∈ acc
      · rw [if_pos hd]
        rw [ih]
        constructor
        · rintro (h | h)
          · exact Or.inl h
          · exact Or.inr ⟨List.mem_cons_of_mem _ h.1, h.2⟩
        · rintro (h | ⟨hm, hnz⟩)
          · exact Or.inl h
          · rcases List.mem_cons.mp hm with rfl | hm'
            · rcases hd with rfl | hin
              · exact absurd rfl hnz
              · exact Or.inl hin
            · exact Or.inr ⟨hm', hnz⟩
      · rw [if_neg hd]
        push_neg at hd
        rw [ih]
        simp only [List.mem_append, List.mem_singleton, List.mem_cons]
        constructor
        · rintro ((h | hfd | hnil) | h)
          · exact Or.inl h
          · subst hfd; exact Or.inr ⟨Or.inl rfl, hd.1⟩
          · exact absurd hnil (List.not_mem_nil f)
          · exact Or.inr ⟨Or.inr h.1, h.2⟩
        · rintro (h | ⟨h, hnz⟩)
          · exact Or.inl (Or.inl h)
          · rcases h with rfl | hm
            · exact Or.inl (Or.inr (Or.inl rfl))
            · exact Or.inr ⟨hm, hnz⟩

theorem mem_facesOf (dice : List Nat) (f : Nat) :
    f ∈ facesOf dice ↔ f ∈ dice ∧ f ≠ 0 := by
  unfold facesOf
  rw [mem_foldl_faces]
  simp

theorem mem_foldl_rules_faces (dice acc : List Nat) (f : Nat) :
    f ∈ dice.foldl (fun acc d => if d ∈ acc then acc else acc ++ [d]) acc ↔
      f ∈ acc ∨ f ∈ dice := by
  induction dice generalizing acc with
  | nil => simp
  | cons d rest ih =>
      simp only [List.foldl_cons]
      by_cases hd : d ∈ acc
      · rw [if_pos hd, ih]
        constructor
        · rintro (h | h)
          · exact Or.inl h
          · exact Or.inr (List.mem_cons_of_mem _ h)
        · rintro (h | hm)
          · exact Or.inl h
          · rcases List.mem_cons.mp hm with rfl | hm'
            · exact Or.inl hd
            · exact Or.inr hm'
      · rw [if_neg hd, ih]
        simp only [List.mem_append, List.mem_singleton, List.mem_cons]
        constructor
        · rintro ((h | hfd | hnil) | h)
          · exact Or.inl h
          · subst hfd; exact Or.inr (Or.inl rfl)
          · exact absurd hnil (List.not_mem_nil f)
          · exact Or.inr (Or.inr h)
        · rintro (h | h)
          · exact Or.inl (Or.inl h)
          · rcases h with rfl | hm
            · exact Or.inl (Or.inr (Or.inl rfl))
            · exact Or.inr hm

theorem mem_rulesFacesOf (dice : List Nat) (f : Nat) :
    f ∈ rulesFacesOf dice ↔ f ∈ dice := by
  unfold rulesFacesOf
  rw [mem_foldl_rules_faces]
  simp

theorem countFace_pair_le (dice : List Nat) (f f' : Nat) (h : f ≠ f') :
    countFace dice f + countFace dice f' ≤ dice.length := by
  induction dice with
  | nil => simp [countFace]
  | cons d rest ih =>
      unfold countFace at ih ⊢
      have hff' : (f == f') = false := by simp [h]
      have hf'f : (f' == f) = false := by simp [Ne.symm h]
      by_cases h1 : d = f
      · subst h1
        simp only [List.filter_cons, beq_self_eq_true, hff', List.length_cons,
          if_true, if_false, Bool.false_eq_true]
        omega
      · by_cases h2 : d = f'
        · subst h2
          simp only [List.filter_cons, beq_self_eq_true, hf'f, List.length_cons,
            if_true, if_false, Bool.false_eq_true]
          omega
        · have h1' : (d == f) = false := by simp [h1]
          have h2' : (d == f') = false := by simp [h2]
          simp only [List.filter_cons, h1', h2', List.length_cons,
            if_false, Bool.false_eq_true]
          omega

theorem mem_of_countFace_pos (dice : List Nat) (f : Nat)
    (h : 0 < countFace dice f) : f ∈ dice := by
  unfold countFace at h
  rcases List.exists_mem_of_length_pos h with ⟨x, hx⟩
  have := List.mem_filter.mp hx
  rcases this with ⟨hmem, hbeq⟩
  exact (eq_of_beq hbeq) ▸ hmem

theorem has_n_iff (dice : List Nat) (n : Nat) :
    has_n_of_a_kind dice n = true ↔ ∃ d ∈ dice, d ≠ 0 ∧ n ≤ countFace dice d := by
  unfold has_n_of_a_kind
  rw [List.any_eq_true]
  constructor
  · rintro ⟨d, hd, hp⟩
    rw [Bool.and_eq_true] at hp
    exact ⟨d, hd, by simpa using hp.1, by simpa using hp.2⟩
  · rintro ⟨d, hd, hnz, hc⟩
    exact ⟨d, hd, by simp [hnz, hc]⟩

theorem score_poker_unfold (dice : List Nat) :
    score_field_value "poker" dice =
      (match faceWithCountGe dice 4 with
       | some face => 50 + 4 * (face : Int)
       | none => 0) := rfl

theorem rules_poker_unfold (dice : List Nat) :
    rules_score_field "poker" dice true =
      some (match rulesFaceWithCount dice 4 with
            | some face => 50 + 4 * (face : Int)
            | none => 0) := rfl

/-- Helper: a face that occurs at least four times among five dice is unique,
so `faceWithCountGe dice 4` finds exactly it. -/
theorem faceWithCountGe_eq (dice : List Nat) (hlen : dice.length = 5)
    (face : Nat) (hnz : face ≠ 0) (hc : 4 ≤ countFace dice face) :
    faceWithCountGe dice 4 = some face := by
  have hmem : face ∈ facesOf dice := by
    rw [mem_facesOf]
    exact ⟨mem_of_countFace_pos dice face (by omega), hnz⟩
  unfold faceWithCountGe
  rcases hfind : (facesOf dice).find? (fun f => decide (4 ≤ countFace dice f)) with _ | f0
  · exfalso
    have := List.find?_eq_none.mp hfind face hmem
    simp [hc] at this
  · have hp := List.find?_some hfind
    have hc0 : 4 ≤ countFace dice f0 := by simpa using hp
    by_cases hf : f0 = face
    · rw [hf]
    · have := countFace_pair_le dice f0 face hf
      omega

/-- Helper: same uniqueness for the exact-count finder of `rules.py`. -/
theorem rulesFaceWithCount_eq (dice : List Nat) (hlen : dice.length = 5)
    (face : Nat) (hc : countFace dice face = 4) :
    rulesFaceWithCount dice 4 = some face := by
  have hmem : face ∈ rulesFacesOf dice := by
    rw [mem_rulesFacesOf]
    exact mem_of_countFace_pos dice face (by omega)
  unfold rulesFaceWithCount
  rcases hfind : (rulesFacesOf dice).find?
      (fun f => (dice.filter (fun d => d == f)).length == 4) with _ | f0
  · exfalso
    have := List.find?_eq_none.mp hfind face hmem
    unfold countFace at hc
    simp [hc] at this
  · have hp := List.find?_some hfind
    have hc0 : countFace dice f0 = 4 := by
      unfold countFace
      simpa using hp
    by_cases hf : f0 = face
    · rw [hf]
    · have := countFace_pair_le dice f0 face hf
      omega

/-- C1 — counterexample.  The claim asserts that *both* scoring
implementations give nonzero poker points whenever some face appears at least
four times.  On five-of-a-kind, `rules.score_field` (with
`poker_allowed=True`) returns 0, because its loop only accepts a face whose
multiplicity is exactly 4. -/
theorem c1_counterexample :
    has_n_of_a_kind [1, 1, 1, 1, 1] 4 = true ∧
    score_field_value "poker" [1, 1, 1, 1, 1] = 54 ∧
    rules_score_field "poker" [1, 1, 1, 1, 1] true = some 0 := by decide

/-- C1 — amended.  For five dice with faces 1..6:
`main.score_field_value "poker"` is positive iff some face appears at least
four times (four- and five-of-a-kind both qualify) and then equals
`50 + 4 × face`; `rules.score_field "poker"` (with `poker_allowed=True`) is
positive iff some face appears *exactly* four times (five-of-a-kind scores 0
there, matching its module doc that a five-of-a-kind is scored by the
separate "60" field), and then equals `50 + 4 × face`. -/
theorem c1_amended_poker_scoring (dice : List Nat) (hlen : dice.length = 5)
    (hdice : ∀ d ∈ dice, 1 ≤ d ∧ d ≤ 6) :
    ((0 < score_field_value "poker" dice ↔ has_n_of_a_kind dice 4 = true) ∧
     (∀ face, 4 ≤ countFace dice face → face ∈ dice →
        score_field_value "poker" dice = 50 + 4 * (face : Int)) ∧
     (0 < (rules_score_field "poker" dice true).getD 0 ↔
        ∃ face ∈ dice, countFace dice face = 4) ∧
     (∀ face, countFace dice face = 4 → face ∈ dice →
        rules_score_field "poker" dice true = some (50 + 4 * (face : Int)))) := by
  refine ⟨?_, ?_, ?_, ?_⟩
  · rw [score_poker_unfold]
    constructor
    · intro hpos
      rcases hge : faceWithCountGe dice 4 with _ | f0
      · rw [hge] at hpos; simp at hpos
      · have hp := List.find?_some hge
        have hmem := List.mem_of_find?_eq_some hge
        rw [mem_facesOf] at hmem
        rw [has_n_iff]
        exact ⟨f0, hmem.1, hmem.2, by simpa using hp⟩
    · intro h4
      rw [has_n_iff] at h4
      rcases h4 with ⟨d, hd, hnz, hc⟩
      rw [faceWithCountGe_eq dice hlen d hnz hc]
      show (0 : Int) < 50 + 4 * (d : Int)
      positivity
  · intro face hc hmem
    have hnz : face ≠ 0 := by
      rcases hdice face hmem with ⟨h1, _⟩
      omega
    rw [score_poker_unfold, faceWithCountGe_eq dice hlen face hnz hc]
  · rw [rules_poker_unfold]
    constructor
    · intro hpos
      rcases hge : rulesFaceWithCount dice 4 with _ | f0
      · rw [hge] at hpos; simp at hpos
      · have hp := List.find?_some hge
        have hmem := List.mem_of_find?_eq_some hge
        rw [mem_rulesFacesOf] at hmem
        refine ⟨f0, hmem, ?_⟩
        unfold countFace
        simpa using hp
    · rintro ⟨face, hmem, hc⟩
      rw [rulesFaceWithCount_eq dice hlen face hc]
      show (0 : Int) < 50 + 4 * (face : Int)
      positivity
  · intro face hc hmem
    rw [rules_poker_unfold, rulesFaceWithCount_eq dice hlen face hc]

/-- Witness for `c1_amended_poker_scoring` at a concrete four-of-a-kind. -/
theorem c1_amended_witness :
    score_field_value "poker" [3, 3, 3, 3, 5] = 50 + 4 * ((3 : Nat) : Int) ∧
    rules_score_field "poker" [3, 3, 3, 3, 5] true = some (50 + 4 * ((3 : Nat) : Int)) := by
  have h := c1_amended_poker_scoring [3, 3, 3, 3, 5] (by decide) (by decide)
  exact ⟨h.2.1 3 (by decide) (by decide), h.2.2.2 3 (by decide) (by decide)⟩

/-! ## Reduction and frame lemmas for `step` -/

theorem step_not_fired (now : Nat) (conn : Conn) (a : Act) (g : Game)
    (hfired : (check_timeout_and_abort now g).2 = false)
    (hspec : conn.is_spectator = false) :
    step now conn a g = handle now conn a (check_timeout_and_abort now g).1 := by
  unfold step
  simp [hfired, hspec]

theorem cta_expected (now : Nat) (g : Game) :
    ((check_timeout_and_abort now g).1).expected = g.expected := by
  rcases cta_cases now g with h | h | h <;> rw [h]

theorem cta_frame (now : Nat) (g : Game) :
    ((check_timeout_and_abort now g).1).dice = g.dice ∧
    ((check_timeout_and_abort now g).1).turn = g.turn ∧
    ((check_timeout_and_abort now g).1).correction = g.correction ∧
    ((check_timeout_and_abort now g).1).holds = g.holds ∧
    ((check_timeout_and_abort now g).1).scoreboards = g.scoreboards ∧
    ((check_timeout_and_abort now g).1).scoreboards_by_team = g.scoreboards_by_team ∧
    ((check_timeout_and_abort now g).1).team_of = g.team_of ∧
    ((check_timeout_and_abort now g).1).mode = g.mode ∧
    ((check_timeout_and_abort now g).1).players = g.players ∧
    ((check_timeout_and_abort now g).1).expected = g.expected ∧
    ((check_timeout_and_abort now g).1).announced_row4 = g.announced_row4 ∧
    ((check_timeout_and_abort now g).1).rolls_used = g.rolls_used ∧
    ((check_timeout_and_abort now g).1).rolls_max = g.rolls_max ∧
    ((check_timeout_and_abort now g).1).last_write = g.last_write ∧
    ((check_timeout_and_abort now g).1).last_dice = g.last_dice ∧
    ((check_timeout_and_abort now g).1).last_meta = g.last_meta ∧
    ((check_timeout_and_abort now g).1).passphrase = g.passphrase := by
  rcases cta_cases now g with h | h | h <;> rw [h] <;>
    exact ⟨rfl, rfl, rfl, rfl, rfl, rfl, rfl, rfl, rfl, rfl, rfl, rfl, rfl, rfl,
           rfl, rfl, rfl⟩

theorem se_frame (now : Nat) (g : Game) :
    (snapshotEffect now g).dice = g.dice ∧
    (snapshotEffect now g).turn = g.turn ∧
    (snapshotEffect now g).correction = g.correction ∧
    (snapshotEffect now g).holds = g.holds ∧
    (snapshotEffect now g).scoreboards = g.scoreboards ∧
    (snapshotEffect now g).scoreboards_by_team = g.scoreboards_by_team ∧
    (snapshotEffect now g).team_of = g.team_of ∧
    (snapshotEffect now g).mode = g.mode ∧
    (snapshotEffect now g).players = g.players ∧
    (snapshotEffect now g).expected = g.expected ∧
    (snapshotEffect now g).announced_row4 = g.announced_row4 ∧
    (snapshotEffect now g).rolls_used = g.rolls_used ∧
    (snapshotEffect now g).rolls_max = g.rolls_max ∧
    (snapshotEffect now g).last_write = g.last_write ∧
    (snapshotEffect now g).last_dice = g.last_dice ∧
    (snapshotEffect now g).last_meta = g.last_meta := by
  have hc := cta_frame now g
  rcases se_cases now g with h | h <;> rw [h] <;>
    exact ⟨hc.1, hc.2.1, hc.2.2.1, hc.2.2.2.1, hc.2.2.2.2.1, hc.2.2.2.2.2.1,
           hc.2.2.2.2.2.2.1, hc.2.2.2.2.2.2.2.1, hc.2.2.2.2.2.2.2.2.1,
           hc.2.2.2.2.2.2.2.2.2.1, hc.2.2.2.2.2.2.2.2.2.2.1,
           hc.2.2.2.2.2.2.2.2.2.2.2.1, hc.2.2.2.2.2.2.2.2.2.2.2.2.1,
           hc.2.2.2.2.2.2.2.2.2.2.2.2.2.1, hc.2.2.2.2.2.2.2.2.2.2.2.2.2.2.1,
           hc.2.2.2.2.2.2.2.2.2.2.2.2.2.2.2.1⟩

/-! ## C6 -/

/-- C6 — counterexample.  A stale 2-player room is aborted on the next access,
but the snapshot built during that same access immediately fills `_results`
with computed totals, so the results do not stay empty. -/
theorem c6_counterexample :
    startedRoom.finished = false ∧
    startedRoom.last_activity = some 0 ∧
    (step 601 connP1 (Act.set_hold [false, false, false, false, false]) startedRoom).1.aborted
      = true ∧
    (step 601 connP1 (Act.set_hold [false, false, false, false, false]) startedRoom).1.finished
      = true ∧
    (step 601 connP1 (Act.set_hold [false, false, false, false, false]) startedRoom).1.results
      = some [("Alice", 0), ("Bob", 0)] := by decide

/-- C6 — amended.  A non-finished room whose last activity is older than the
10-minute timeout transitions to aborted/finished on the next access;
`check_timeout_and_abort` itself leaves the results empty (and no leaderboard
finalisation runs), but the snapshot produced by that same access fills the
results field with display totals. -/
theorem c6_amended_timeout (now : Nat) (g : Game) (t : Nat)
    (hla : g.last_activity = some t) (hnf : g.finished = false)
    (htime : GAME_TIMEOUT < now - t) :
    (check_timeout_and_abort now g).2 = true ∧
    ((check_timeout_and_abort now g).1).aborted = true ∧
    ((check_timeout_and_abort now g).1).finished = true ∧
    ((check_timeout_and_abort now g).1).started = false ∧
    ((check_timeout_and_abort now g).1).results = none ∧
    (snapshotEffect now g).aborted = true ∧
    (snapshotEffect now g).finished = true ∧
    (snapshotEffect now g).results =
      some (compute_results_for_snapshot (check_timeout_and_abort now g).1) := by
  have hcta : check_timeout_and_abort now g =
      ({ g with aborted := true, started := false, finished := true,
                results := none }, true) := by
    unfold check_timeout_and_abort
    rw [hla]
    simp [hnf, htime]
  have hse : snapshotEffect now g =
      { (check_timeout_and_abort now g).1 with
          results := some (compute_results_for_snapshot (check_timeout_and_abort now g).1) } := by
    unfold snapshotEffect
    rw [hcta]
    simp
  refine ⟨by rw [hcta], by rw [hcta], by rw [hcta], by rw [hcta], by rw [hcta],
          ?_, ?_, ?_⟩
  · rw [hse, hcta]
  · rw [hse, hcta]
  · rw [hse]

/-- Witness for `c6_amended_timeout` on a concrete stale room. -/
theorem c6_amended_witness :
    (check_timeout_and_abort 601 startedRoom).2 = true ∧
    ((check_timeout_and_abort 601 startedRoom).1).results = none ∧
    (snapshotEffect 601 startedRoom).results =
      some (compute_results_for_snapshot (check_timeout_and_abort 601 startedRoom).1) := by
  have h := c6_amended_timeout 601 startedRoom 0 (by decide) (by decide) (by decide)
  exact ⟨h.1, h.2.2.2.2.1, h.2.2.2.2.2.2.2⟩

/-! ## C7 -/

theorem writable_map_isSome (r : Nat) (h : r ∈ WRITABLE_ROWS) :
    (WRITABLE_MAP r).isSome := by
  simp [WRITABLE_ROWS] at h
  rcases h with rfl | rfl | rfl | rfl | rfl | rfl | rfl | rfl | rfl | rfl | rfl | rfl <;> rfl

theorem next_required_row_mem (col : Col) (filled : List Nat) (r : Nat)
    (h : next_required_row col filled = some r) : r ∈ WRITABLE_ROWS := by
  unfold next_required_row at h
  by_cases hc : col = Col.down
  · rw [if_pos hc] at h
    exact List.mem_of_find?_eq_some h
  · rw [if_neg hc] at h
    exact List.mem_reverse.mp (List.mem_of_find?_eq_some h)

/-- C7 — confirmed.  In a top-down or bottom-up column (escape hatch and
announcement out of play) a write is allowed iff the target row is the next
unfilled row of the column's fixed traversal order, and any other target is
rejected with exactly that next-required row — a writable row, i.e. a named
category — in the reason. -/
theorem c7_column_order (g : Game) (pid : Option String) (row : Nat) (col : Col)
    (hrow : row ∈ WRITABLE_ROWS) (hrem : remaining_cells_for g pid ≠ 1)
    (hcol : col = Col.down ∨ col = Col.up) :
    (can_write_now g pid row col none = none ↔
       next_required_row col (filledRowsFor g pid col) = some row) ∧
    (∀ r, next_required_row col (filledRowsFor g pid col) = some r →
       r ∈ WRITABLE_ROWS ∧ (WRITABLE_MAP r).isSome = true) ∧
    (∀ r, next_required_row col (filledRowsFor g pid col) = some r → row ≠ r →
       can_write_now g pid row col none = some (Err.nextRequired r)) := by
  have hcw : can_write_now g pid row col none =
      (match next_required_row col (filledRowsFor g pid col) with
       | none => some Err.columnFull
       | some next => if row ≠ next then some (Err.nextRequired next) else none) := by
    unfold can_write_now
    rw [if_neg (by simpa using hrow), if_neg hrem]
    rcases hcol with rfl | rfl <;> rfl
  refine ⟨?_, ?_, ?_⟩
  · rw [hcw]
    rcases hnext : next_required_row col (filledRowsFor g pid col) with _ | r
    · simp
    · by_cases hr : row = r
      · subst hr
        simp
      · simp [hr]
        intro h; exact absurd h.symm hr
  · intro r hr
    exact ⟨next_required_row_mem col _ r hr, writable_map_isSome r (next_required_row_mem col _ r hr)⟩
  · intro r hr hne
    rw [hcw, hr]
    simp [hne]

/-- Witness for `c7_column_order` on a fresh board: row 1 in the top-down
column is rejected, naming row 0 as next required. -/
theorem c7_witness :
    can_write_now startedRoom (some "p1") 1 Col.down none =
      some (Err.nextRequired 0) := by
  have h := c7_column_order startedRoom (some "p1") 1 Col.down
    (by decide) (by decide) (Or.inl rfl)
  exact h.2.2 0 (by decide) (by decide)

/-! ## C9 -/

/-- C9 — confirmed (implicit behaviour).  Outside the opportunistic timeout
sweep, `set_hold` from any non-spectator connection unconditionally replaces
the hold flags with the supplied values and never returns an error: it is
applied regardless of whose turn it is, whether the sender ever joined,
whether a correction is active, and whether the game has started or
finished. -/
theorem c9_set_hold (now : Nat) (conn : Conn) (hs : List Bool) (g : Game)
    (hspec : conn.is_spectator = false)
    (hfired : (check_timeout_and_abort now g).2 = false) :
    (step now conn (Act.set_hold hs) g).2 = Reply.ok ∧
    ((step now conn (Act.set_hold hs) g).1).holds = hs.take 5 ∧
    ((step now conn (Act.set_hold hs) g).1).correction = g.correction ∧
    ((step now conn (Act.set_hold hs) g).1).turn = g.turn ∧
    ((step now conn (Act.set_hold hs) g).1).dice = g.dice := by
  rw [step_not_fired now conn _ g hfired hspec]
  have hc := cta_frame now g
  have hse := se_frame now
    (touch now { (check_timeout_and_abort now g).1 with holds := hs.take 5 })
  exact ⟨rfl, hse.2.2.2.1, hse.2.2.1.trans hc.2.2.1, hse.2.1.trans hc.2.1,
         hse.1.trans hc.1⟩

/-- Witness for `c9_set_hold`: a connection that never joined replaces the
holds of a room in which another player's correction is pending. -/
theorem c9_witness :
    (step 0 connNone (Act.set_hold [true, false, true, false, true]) downCorrectionRoom).2
      = Reply.ok ∧
    ((step 0 connNone (Act.set_hold [true, false, true, false, true]) downCorrectionRoom).1).holds
      = [true, false, true, false, true] := by
  have h := c9_set_hold 0 connNone [true, false, true, false, true] downCorrectionRoom
    rfl (by decide)
  exact ⟨h.1, h.2.1⟩

/-! ## C10 -/

/-- C10 — confirmed (implicit behaviour).  Outside the timeout sweep, in any
room expecting more than one player, `cancel_correction` from any
non-spectator connection always succeeds: it deactivates the correction state
and zeroes the dice, even when no correction is active, when the correction
belongs to another player, or while another player's rolled dice are showing
(which it discards). -/
theorem c10_cancel_correction (now : Nat) (conn : Conn) (g : Game)
    (hspec : conn.is_spectator = false)
    (hfired : (check_timeout_and_abort now g).2 = false)
    (hexp : g.expected ≠ 1) :
    (step now conn Act.cancel_correction g).2 = Reply.ok ∧
    ((step now conn Act.cancel_correction g).1).correction = Corr.inactive ∧
    ((step now conn Act.cancel_correction g).1).dice = [0, 0, 0, 0, 0] := by
  rw [step_not_fired now conn _ g hfired hspec]
  have hexp1 : ((check_timeout_and_abort now g).1).expected ≠ 1 := by
    rw [cta_expected]; exact hexp
  have hh : handle now conn Act.cancel_correction (check_timeout_and_abort now g).1 =
      (snapshotEffect now
         (touch now { (check_timeout_and_abort now g).1 with
                        correction := Corr.inactive, dice := [0, 0, 0, 0, 0] }),
       Reply.ok) := by
    show (if ((check_timeout_and_abort now g).1).expected = 1
          then ((check_timeout_and_abort now g).1, Reply.err Err.correctionDisabled1P)
          else (snapshotEffect now
                  (touch now { (check_timeout_and_abort now g).1 with
                                 correction := Corr.inactive, dice := [0, 0, 0, 0, 0] }),
                Reply.ok)) =
         (snapshotEffect now
            (touch now { (check_timeout_and_abort now g).1 with
                           correction := Corr.inactive, dice := [0, 0, 0, 0, 0] }),
          Reply.ok)
    rw [if_neg hexp1]
  rw [hh]
  have hse := se_frame now
    (touch now { (check_timeout_and_abort now g).1 with
                   correction := Corr.inactive, dice := [0, 0, 0, 0, 0] })
  exact ⟨rfl, hse.2.2.1, hse.1⟩

/-- Witness for `c10_cancel_correction`: `p2` cancels while `p1` is mid-roll
with no correction active; the rolled dice are discarded. -/
theorem c10_witness :
    midRollRoom.correction.active = false ∧
    midRollRoom.dice = [3, 3, 3, 3, 5] ∧
    (step 0 connP2 Act.cancel_correction midRollRoom).2 = Reply.ok ∧
    ((step 0 connP2 Act.cancel_correction midRollRoom).1).dice = [0, 0, 0, 0, 0] := by
  have h := c10_cancel_correction 0 connP2 midRollRoom rfl (by decide) (by decide)
  exact ⟨by decide, by decide, h.1, h.2.2⟩

/-! ## C3 -/

/-- C3 — confirmed.  In a two-player room, after four-of-a-kind of any face on
roll 1, a mistaken unrelated write (kenter, free column) on roll 1 and a
correction request, the live turn context shows no four-of-a-kind tracking
(`roll_index = 0`, `first4oak_roll = None` for the next player), yet the
frozen correction metadata carries `roll_index = 1`, `first4oak_roll = 1`, and
the correction write into "poker" commits the full `50 + 4 × face` points. -/
theorem c3_correction_poker_regression :
    ∀ f : Fin 6,
      (correctionRoom (f.val + 1) (if f.val = 0 then 2 else 1)).correction.active = true ∧
      (correctionRoom (f.val + 1) (if f.val = 0 then 2 else 1)).correction.roll_index = 1 ∧
      (correctionRoom (f.val + 1) (if f.val = 0 then 2 else 1)).correction.first4oak_roll
        = some 1 ∧
      (correctionRoom (f.val + 1) (if f.val = 0 then 2 else 1)).turn =
        some ⟨some "p2", 0, none⟩ ∧
      Board.lookupCell
        ((alookup ((step 0 connP1 (Act.write_field_correction 14 Col.free false)
            (correctionRoom (f.val + 1) (if f.val = 0 then 2 else 1))).1.scoreboards)
          (some "p1")).getD [])
        (14, Col.free) = some (50 + 4 * ((f.val + 1 : Nat) : Int)) ∧
      (step 0 connP1 (Act.write_field_correction 14 Col.free false)
          (correctionRoom (f.val + 1) (if f.val = 0 then 2 else 1))).2 = Reply.ok := by
  decide

/-! ## C4 / C5 -/

/-- C4 — counterexample.  A `write_field_correction` rejected for a
column-order violation replies with an error but has already removed the
requester's previous cell: the room state after the rejection differs from
the state before it. -/
theorem c4_counterexample :
    (step 0 connP1 (Act.write_field_correction 1 Col.down false) downCorrectionRoom).2
      = Reply.err (Err.nextRequired 0) ∧
    (step 0 connP1 (Act.write_field_correction 1 Col.down false) downCorrectionRoom).1
      ≠ downCorrectionRoom ∧
    Board.lookupCell ((alookup downCorrectionRoom.scoreboards (some "p1")).getD [])
      (0, Col.down) = some 1 ∧
    Board.lookupCell
      ((alookup (step 0 connP1 (Act.write_field_correction 1 Col.down false)
          downCorrectionRoom).1.scoreboards (some "p1")).getD [])
      (0, Col.down) = none := by decide

/-- C5 — counterexample.  A `write_field_correction` that passes the
preconditions (correction active and owned by the sender) but is finally
rejected for a column-order violation does *not* exit correction mode: the
correction state is still active afterwards. -/
theorem c5_counterexample :
    downCorrectionRoom.correction.active = true ∧
    downCorrectionRoom.correction.player_id = some "p1" ∧
    (step 0 connP1 (Act.write_field_correction 1 Col.down false) downCorrectionRoom).2
      = Reply.err (Err.nextRequired 0) ∧
    (step 0 connP1 (Act.write_field_correction 1 Col.down false)
        downCorrectionRoom).1.correction.active = true := by decide

theorem step_cases (now : Nat) (conn : Conn) (a : Act) (g : Game) :
    (step now conn a g =
       (snapshotEffect now (check_timeout_and_abort now g).1, Reply.ok)) ∨
    ((check_timeout_and_abort now g).2 = false ∧ conn.is_spectator = true ∧
       step now conn a g =
         ((check_timeout_and_abort now g).1, Reply.err Err.spectatorOnly)) ∨
    ((check_timeout_and_abort now g).2 = false ∧
       step now conn a g = handle now conn a (check_timeout_and_abort now g).1) := by
  unfold step
  by_cases h1 : (check_timeout_and_abort now g).2 = true
  · left; simp [h1]
  · have h1' : (check_timeout_and_abort now g).2 = false := by
      rcases hb : (check_timeout_and_abort now g).2 with _ | _
      · rfl
      · exact absurd hb h1
    by_cases h2 : conn.is_spectator = true ∧ ¬ spectatorAllowed a = true
    · right; left
      exact ⟨h1', h2.1, by simp [h1', h2]⟩
    · right; right
      refine ⟨h1', ?_⟩
      by_cases hsp : conn.is_spectator = true
      · have hal : spectatorAllowed a = true := by
          by_contra hna
          exact h2 ⟨hsp, by simpa using hna⟩
        simp [h1', hsp, hal]
      · simp [h1', hsp]

set_option maxHeartbeats 1000000 in
theorem handle_err_frame (now : Nat) (conn : Conn) (a : Act) (g : Game) :
    ∀ e, (handle now conn a g).2 = Reply.err e →
      (handle now conn a g).1 = g ∨
      ((∃ row col strike, a = Act.write_field_correction row col strike) ∧
        (handle now conn a g).1 = popOldCell g conn.player_id) := by
  cases a <;>
  · simp only [handle]
    repeat' split
    all_goals intro e he
    all_goals
      first
        | exact Reply.noConfusion he
        | (left; trivial)
        | (right; exact ⟨⟨_, _, _, rfl⟩, by simp only [popOldCell, *]⟩)

/-- C4 — amended.  An action rejected with an error reply leaves the room
state exactly as it was — except a `write_field_correction` rejected after its
preliminary checks (column-order violation, full column, occupied target),
which has already removed the requester's most recent cell from the board
(and is the only error path that mutates state). -/
theorem c4_amended_error_frame (now : Nat) (conn : Conn) (a : Act) (g : Game)
    (l : Nat) (hla : g.last_activity = some l) :
    ∀ e, (step now conn a g).2 = Reply.err e →
      (step now conn a g).1 = g ∨
      ((∃ row col strike, a = Act.write_field_correction row col strike) ∧
        (step now conn a g).1 = popOldCell g conn.player_id) := by
  intro e he
  rcases step_cases now conn a g with hs | ⟨hf, _, hs⟩ | ⟨hf, hs⟩
  · rw [hs] at he; exact Reply.noConfusion he
  · rw [cta_not_fired_eq now g l hla hf] at hs
    rw [hs]
    left; rfl
  · rw [cta_not_fired_eq now g l hla hf] at hs
    rw [hs] at he ⊢
    exact handle_err_frame now conn a g e he

/-- Witness for `c4_amended_error_frame`: an out-of-turn roll is rejected and
the room is unchanged. -/
theorem c4_amended_witness :
    (step 0 connP2 (Act.roll_dice [1, 1, 1, 1, 1]) startedRoom).1 = startedRoom ∨
    ((∃ row col strike,
        Act.roll_dice [1, 1, 1, 1, 1] = Act.write_field_correction row col strike) ∧
      (step 0 connP2 (Act.roll_dice [1, 1, 1, 1, 1]) startedRoom).1 =
        popOldCell startedRoom connP2.player_id) :=
  c4_amended_error_frame 0 connP2 (Act.roll_dice [1, 1, 1, 1, 1]) startedRoom 0
    (by decide) Err.notYourTurn (by decide)

theorem setBoardFor_frame (g : Game) (pid : Option String) (b : Board) :
    (setBoardFor g pid b).correction = g.correction ∧
    (setBoardFor g pid b).dice = g.dice ∧
    (setBoardFor g pid b).turn = g.turn ∧
    (setBoardFor g pid b).last_write = g.last_write ∧
    (setBoardFor g pid b).announced_row4 = g.announced_row4 ∧
    (setBoardFor g pid b).mode = g.mode ∧
    (setBoardFor g pid b).team_of = g.team_of ∧
    (setBoardFor g pid b).players = g.players ∧
    (setBoardFor g pid b).expected = g.expected ∧
    (setBoardFor g pid b).rolls_used = g.rolls_used ∧
    (setBoardFor g pid b).last_activity = g.last_activity ∧
    (setBoardFor g pid b).last_dice = g.last_dice ∧
    (setBoardFor g pid b).last_meta = g.last_meta := by
  unfold setBoardFor
  split <;>
    exact ⟨rfl, rfl, rfl, rfl, rfl, rfl, rfl, rfl, rfl, rfl, rfl, rfl, rfl⟩

theorem wfc_commit_frame (now : Nat) (conn : Conn) (row : Nat) (col : Col)
    (strike : Bool) (fld : String) (old_rolls : Nat) (dfe : List Nat) (g : Game) :
    (wfc_commit now conn row col strike fld old_rolls dfe g).2 = Reply.ok ∧
    ((wfc_commit now conn row col strike fld old_rolls dfe g).1).correction
      = Corr.inactive ∧
    ((wfc_commit now conn row col strike fld old_rolls dfe g).1).dice
      = [0, 0, 0, 0, 0] := by
  unfold wfc_commit
  exact ⟨rfl, ((se_frame now _).2.2.1).trans rfl, ((se_frame now _).1).trans rfl⟩

/-- C5 — amended.  A `write_field_correction` exits correction mode only when
it commits: on success the correction state is inactive and the dice display
is reset, but a write rejected after the preconditions (order violation, full
column, occupied target, and the earlier validation errors) leaves the
correction state exactly as it was — an active correction stays active. -/
theorem c5_amended_correction_exit (now : Nat) (conn : Conn) (row : Nat)
    (col : Col) (strike : Bool) (g : Game)
    (hspec : conn.is_spectator = false)
    (hfired : (check_timeout_and_abort now g).2 = false)
    (l : Nat) (hla : g.last_activity = some l) :
    ((step now conn (Act.write_field_correction row col strike) g).2 = Reply.ok →
       (step now conn
         (Act.write_field_correction row col strike) g).1.correction.active = false ∧
       (step now conn
         (Act.write_field_correction row col strike) g).1.dice = [0, 0, 0, 0, 0]) ∧
    (∀ e, (step now conn (Act.write_field_correction row col strike) g).2
        = Reply.err e →
       (step now conn
         (Act.write_field_correction row col strike) g).1.correction = g.correction) := by
  rw [step_not_fired now conn _ g hfired hspec, cta_not_fired_eq now g l hla hfired]
  constructor
  · simp only [handle]
    repeat' split
    all_goals intro hok
    all_goals
      first
        | exact Reply.noConfusion hok
        | exact ⟨by rw [(wfc_commit_frame _ _ _ _ _ _ _ _ _).2.1]; rfl,
                 (wfc_commit_frame _ _ _ _ _ _ _ _ _).2.2⟩
  · simp only [handle]
    repeat' split
    all_goals intro e he
    all_goals
      first
        | exact Reply.noConfusion he
        | rfl
        | exact (setBoardFor_frame _ _ _).1

/-- Witness for `c5_amended_correction_exit`: the successful poker correction
of the regression trace exits correction mode and resets the dice. -/
theorem c5_amended_witness :
    (step 0 connP1 (Act.write_field_correction 14 Col.free false)
        (correctionRoom 3 5)).1.correction.active = false ∧
    (step 0 connP1 (Act.write_field_correction 14 Col.free false)
        (correctionRoom 3 5)).1.dice = [0, 0, 0, 0, 0] :=
  (c5_amended_correction_exit 0 connP1 14 Col.free false (correctionRoom 3 5)
      rfl (by decide) 0 (by decide)).1 (by decide)

/-! ## Board-access lemmas -/

theorem boardAt_congr (g' g : Game) (hs : g'.scoreboards = g.scoreboards)
    (hbt : g'.scoreboards_by_team = g.scoreboards_by_team)
    (team : Bool) (bkey : Option String) :
    boardAt g' team bkey = boardAt g team bkey := by
  unfold boardAt
  rw [hs, hbt]

theorem boardAt_eq_boardFor (g : Game) (pid : Option String) :
    boardAt g (is_team_mode g) (board_key_for_actor g pid) = boardFor g pid := by
  unfold boardAt boardFor
  by_cases h : is_team_mode g = true
  · rw [if_pos h, if_pos h]
  · rw [if_neg h, if_neg h]
    unfold board_key_for_actor
    rw [if_neg h]

theorem lookup_boardAt_setBoardFor (g : Game) (pid : Option String) (b : Board)
    (team : Bool) (bkey : Option String) (k : Cell) :
    (boardAt (setBoardFor g pid b) team bkey).lookupCell k =
      (if team = is_team_mode g ∧ bkey = board_key_for_actor g pid
       then b.lookupCell k
       else (boardAt g team bkey).lookupCell k) := by
  unfold boardAt setBoardFor
  cases team with
  | true =>
      cases hm : is_team_mode g with
      | true =>
          by_cases hb : bkey = board_key_for_actor g pid
          · subst hb
            simp [alookup_aset_self]
          · simp [alookup_aset_ne _ _ _ _ hb, hb]
      | false => simp
  | false =>
      cases hm : is_team_mode g with
      | true => simp
      | false =>
          have hpid : board_key_for_actor g pid = pid := by
            unfold board_key_for_actor
            rw [hm]
            simp
          by_cases hb : bkey = pid
          · subst hb
            simp [hpid, alookup_aset_self]
          · simp [hpid, hb, alookup_aset_ne _ _ _ _ hb]

theorem is_team_mode_setBoardFor (g : Game) (pid : Option String) (b : Board) :
    is_team_mode (setBoardFor g pid b) = is_team_mode g := by
  unfold is_team_mode
  rw [(setBoardFor_frame g pid b).2.2.2.2.2.1]

theorem board_key_setBoardFor (g : Game) (pid q : Option String) (b : Board) :
    board_key_for_actor (setBoardFor g pid b) q = board_key_for_actor g q := by
  unfold board_key_for_actor
  rw [is_team_mode_setBoardFor, (setBoardFor_frame g pid b).2.2.2.2.2.2.1]

theorem boardFor_setBoardFor (g : Game) (pid : Option String) (b : Board) :
    boardFor (setBoardFor g pid b) pid = b := by
  unfold boardFor
  rw [is_team_mode_setBoardFor, board_key_setBoardFor]
  by_cases hm : is_team_mode g = true
  · rw [if_pos hm]
    have h2 : (setBoardFor g pid b).scoreboards_by_team =
        aset g.scoreboards_by_team (board_key_for_actor g pid) b := by
      unfold setBoardFor
      rw [if_pos hm]
    rw [h2, alookup_aset_self]
    rfl
  · rw [if_neg hm]
    have h2 : (setBoardFor g pid b).scoreboards = aset g.scoreboards pid b := by
      unfold setBoardFor
      rw [if_neg hm]
    rw [h2, alookup_aset_self]
    rfl

theorem set_roll_cap_frame (g : Game) :
    (set_roll_cap g).scoreboards = g.scoreboards ∧
    (set_roll_cap g).scoreboards_by_team = g.scoreboards_by_team ∧
    (set_roll_cap g).mode = g.mode ∧
    (set_roll_cap g).turn = g.turn ∧
    (set_roll_cap g).dice = g.dice ∧
    (set_roll_cap g).players = g.players ∧
    (set_roll_cap g).expected = g.expected ∧
    (set_roll_cap g).correction = g.correction ∧
    (set_roll_cap g).team_of = g.team_of := by
  unfold set_roll_cap
  rcases htt : g.turn with _ | t <;>
    exact ⟨rfl, rfl, rfl, rfl, rfl, rfl, rfl, rfl, rfl⟩

theorem assign_team_frame (g : Game) (pid : String) :
    (assign_team_for_join g pid).turn = g.turn ∧
    (assign_team_for_join g pid).dice = g.dice ∧
    (assign_team_for_join g pid).correction = g.correction ∧
    (assign_team_for_join g pid).players = g.players ∧
    (assign_team_for_join g pid).expected = g.expected := by
  unfold assign_team_for_join
  dsimp only
  repeat' split
  all_goals exact ⟨rfl, rfl, rfl, rfl, rfl⟩

/-- Preservation of a present cell through the committing tail of
`write_field`: the snapshot of any state whose two scoreboard maps equal
those of the board-write still holds the cell. -/
theorem write_field_commit_preserve (now : Nat) (pid : Option String)
    (key : Cell) (value : Int) (g gMid : Game)
    (team : Bool) (bkey : Option String) (k : Cell) (v : Int)
    (hniq : (boardFor g pid).containsCell key = false)
    (hpre : (boardAt g team bkey).lookupCell k = some v)
    (hs : gMid.scoreboards =
      (setBoardFor g pid ((boardFor g pid).setCell key value)).scoreboards)
    (hbt : gMid.scoreboards_by_team =
      (setBoardFor g pid ((boardFor g pid).setCell key value)).scoreboards_by_team) :
    (boardAt (snapshotEffect now gMid) team bkey).lookupCell k = some v := by
  rw [boardAt_congr _ gMid (se_frame now gMid).2.2.2.2.1
    (se_frame now gMid).2.2.2.2.2.1]
  rw [boardAt_congr _ (setBoardFor g pid ((boardFor g pid).setCell key value)) hs hbt]
  rw [lookup_boardAt_setBoardFor]
  by_cases hc : team = is_team_mode g ∧ bkey = board_key_for_actor g pid
  · rw [if_pos hc]
    rw [hc.1, hc.2, boardAt_eq_boardFor] at hpre
    have hk : k ≠ key := by
      intro hkk
      rw [hkk, lookupCell_none_of_not_contains _ _ hniq] at hpre
      exact Option.noConfusion hpre
    rw [lookupCell_setCell_ne _ _ _ _ hk]
    exact hpre
  · rw [if_neg hc]
    exact hpre

/-- A cell that the old-entry pop of `write_field_correction` changes is the
popped cell itself. -/
theorem pop_boards_change (g : Game) (pid : Option String) (old_key : Cell)
    (team : Bool) (bkey : Option String) (k : Cell) (v : Int)
    (hpre : (boardAt g team bkey).lookupCell k = some v)
    (hpost : (boardAt (setBoardFor g pid ((boardFor g pid).eraseCell old_key))
        team bkey).lookupCell k ≠ some v) :
    k = old_key := by
  rw [lookup_boardAt_setBoardFor] at hpost
  by_cases hc : team = is_team_mode g ∧ bkey = board_key_for_actor g pid
  · rw [if_pos hc] at hpost
    by_cases hk : k = old_key
    · exact hk
    · exfalso
      rw [lookupCell_eraseCell_ne _ _ _ hk] at hpost
      rw [hc.1, hc.2, boardAt_eq_boardFor] at hpre
      exact hpost hpre
  · rw [if_neg hc] at hpost
    exact absurd hpre hpost

theorem boardAt_cta (now : Nat) (g : Game) (team : Bool) (bkey : Option String) :
    boardAt (check_timeout_and_abort now g).1 team bkey = boardAt g team bkey := by
  rcases cta_cases now g with h | h | h <;> rw [h] <;> rfl

theorem boardAt_se (now : Nat) (g : Game) (team : Bool) (bkey : Option String) :
    boardAt (snapshotEffect now g) team bkey = boardAt g team bkey :=
  boardAt_congr _ _ ((se_frame now g).2.2.2.2.1) ((se_frame now g).2.2.2.2.2.1)
    team bkey

theorem boardAt_wfc_commit (now : Nat) (conn : Conn) (row : Nat) (col : Col)
    (strike : Bool) (fld : String) (old_rolls : Nat) (dfe : List Nat) (gP : Game)
    (team : Bool) (bkey : Option String) :
    boardAt (wfc_commit now conn row col strike fld old_rolls dfe gP).1 team bkey =
    boardAt (setBoardFor gP conn.player_id
      ((boardFor gP conn.player_id).setCell (row, col) (wfc_value strike fld dfe gP col)))
      team bkey :=
  boardAt_congr _ _ ((se_frame now _).2.2.2.2.1) ((se_frame now _).2.2.2.2.2.1) team bkey

theorem is_team_mode_cta (now : Nat) (g : Game) :
    is_team_mode (check_timeout_and_abort now g).1 = is_team_mode g := by
  unfold is_team_mode
  rw [(cta_frame now g).2.2.2.2.2.2.2.1]

theorem wfc_commit_change (now : Nat) (conn : Conn) (row : Nat) (col : Col)
    (strike : Bool) (fld : String) (old_rolls : Nat) (dfe : List Nat)
    (g : Game) (old_key : Cell)
    (team : Bool) (bkey : Option String) (k : Cell) (v : Int)
    (hpre : (boardAt g team bkey).lookupCell k = some v)
    (hniq : (boardFor (setBoardFor g conn.player_id
        ((boardFor g conn.player_id).eraseCell old_key)) conn.player_id).containsCell
        (row, col) = false)
    (hpost : (boardAt (wfc_commit now conn row col strike fld old_rolls dfe
        (setBoardFor g conn.player_id
          ((boardFor g conn.player_id).eraseCell old_key))).1 team bkey).lookupCell k
        ≠ some v) :
    k = old_key := by
  rw [boardAt_wfc_commit] at hpost
  rw [lookup_boardAt_setBoardFor] at hpost
  set gP := setBoardFor g conn.player_id
    ((boardFor g conn.player_id).eraseCell old_key) with hgP
  by_cases hc : team = is_team_mode gP ∧ bkey = board_key_for_actor gP conn.player_id
  · rw [if_pos hc] at hpost
    rw [boardFor_setBoardFor] at hpost hniq
    by_cases hk : k = old_key
    · exact hk
    · exfalso
      have hg1 : is_team_mode gP = is_team_mode g := is_team_mode_setBoardFor _ _ _
      have hg2 : board_key_for_actor gP conn.player_id
          = board_key_for_actor g conn.player_id := board_key_setBoardFor _ _ _ _
      have hpre2 : ((boardFor g conn.player_id).eraseCell old_key).lookupCell k
          = some v := by
        rw [lookupCell_eraseCell_ne _ _ _ hk]
        rw [hc.1, hg1, hc.2, hg2, boardAt_eq_boardFor] at hpre
        exact hpre
      by_cases hkk : k = (row, col)
      · rw [hkk, lookupCell_none_of_not_contains _ _ hniq] at hpre2
        exact Option.noConfusion hpre2
      · rw [lookupCell_setCell_ne _ _ _ _ hkk] at hpost
        exact hpost hpre2
  · rw [if_neg hc] at hpost
    exact pop_boards_change g conn.player_id old_key team bkey k v hpre hpost

set_option maxHeartbeats 1000000 in
theorem handle_write_field_preserves (now : Nat) (conn : Conn) (row : Nat)
    (col : Col) (strike : Bool) (g : Game) (team : Bool) (bkey : Option String)
    (k : Cell) (v : Int)
    (hpre : (boardAt g team bkey).lookupCell k = some v) :
    (boardAt (handle now conn (Act.write_field row col strike) g).1
      team bkey).lookupCell k = some v := by
  simp only [handle]
  repeat' split
  all_goals
    first
      | exact hpre
      | (refine write_field_commit_preserve now conn.player_id (row, col) _ g _
          team bkey k v ?_ hpre ((set_roll_cap_frame _).1) ((set_roll_cap_frame _).2.1)
         simp_all)

set_option maxHeartbeats 1000000 in
theorem handle_wfc_change (now : Nat) (conn : Conn) (row : Nat) (col : Col)
    (strike : Bool) (g : Game) (team : Bool) (bkey : Option String)
    (k : Cell) (v : Int)
    (hpre : (boardAt g team bkey).lookupCell k = some v)
    (hpost : (boardAt (handle now conn (Act.write_field_correction row col strike) g).1
        team bkey).lookupCell k ≠ some v) :
    ∃ r c n, alookup g.last_write conn.player_id = some (r, c, n) ∧ k = (r, c) := by
  revert hpost
  simp only [handle]
  repeat' split
  all_goals intro hpost
  all_goals
    first
      | exact absurd hpre hpost
      | (refine ⟨_, _, _, by assumption, ?_⟩
         first
           | exact pop_boards_change g conn.player_id _ team bkey k v hpre hpost
           | (refine wfc_commit_change now conn row col strike _ _ _ g _ team bkey k v
                hpre ?_ hpost
              simp_all))

theorem can_write_now_row_writable (g : Game) (pid : Option String) (row : Nat)
    (col : Col) (announce : Option String)
    (h : can_write_now g pid row col announce = none) : row ∈ WRITABLE_ROWS := by
  by_cases hr : row ∈ WRITABLE_ROWS
  · exact hr
  · unfold can_write_now at h
    rw [if_pos hr] at h
    exact Option.noConfusion h

/-- C8 — confirmed.  A scoreboard cell, once present, is never changed or
removed by a normal `write_field` (a write targeting an occupied cell is
rejected with an unchanged room); only `write_field_correction` can make a
present cell disappear, and any cell it changes is exactly the requesting
actor's single most recent write. -/
theorem c8_cell_immutability (now : Nat) (conn : Conn) (row : Nat) (col : Col)
    (strike : Bool) (g : Game) :
    (∀ (team : Bool) (bkey : Option String) (k : Cell) (v : Int),
        (boardAt g team bkey).lookupCell k = some v →
        (boardAt (step now conn (Act.write_field row col strike) g).1
          team bkey).lookupCell k = some v) ∧
    (∀ t l, g.turn = some t → t.player_id = conn.player_id →
        g.correction.active = false → conn.is_spectator = false →
        (check_timeout_and_abort now g).2 = false → g.last_activity = some l →
        can_write_now g conn.player_id row col g.announced_row4 = none →
        (boardFor g conn.player_id).containsCell (row, col) = true →
        (step now conn (Act.write_field row col strike) g).2
          = Reply.err Err.cellOccupied ∧
        (step now conn (Act.write_field row col strike) g).1 = g) ∧
    (∀ (team : Bool) (bkey : Option String) (k : Cell) (v : Int),
        (boardAt g team bkey).lookupCell k = some v →
        (boardAt (step now conn (Act.write_field_correction row col strike) g).1
          team bkey).lookupCell k ≠ some v →
        ∃ r c n, alookup g.last_write conn.player_id = some (r, c, n) ∧ k = (r, c)) := by
  refine ⟨?_, ?_, ?_⟩
  · intro team bkey k v hpre
    rcases step_cases now conn (Act.write_field row col strike) g with
      hs | ⟨_, _, hs⟩ | ⟨_, hs⟩
    · rw [hs]
      show (boardAt (snapshotEffect now (check_timeout_and_abort now g).1)
        team bkey).lookupCell k = some v
      rw [boardAt_se, boardAt_cta]
      exact hpre
    · rw [hs]
      show (boardAt (check_timeout_and_abort now g).1 team bkey).lookupCell k = some v
      rw [boardAt_cta]
      exact hpre
    · rw [hs]
      exact handle_write_field_preserves now conn row col strike _ team bkey k v
        (by rw [boardAt_cta]; exact hpre)
  · intro t l ht hpid hcorr hspec hfired hla hcw hocc
    obtain ⟨fld, hfld⟩ := Option.isSome_iff_exists.mp
      (writable_map_isSome row (can_write_now_row_writable _ _ _ _ _ hcw))
    have hred : step now conn (Act.write_field row col strike) g
        = (g, Reply.err Err.cellOccupied) := by
      rw [step_not_fired now conn _ g hfired hspec, cta_not_fired_eq now g l hla hfired]
      simp only [handle]
      rw [ht]
      simp [hpid, hcorr, hfld, hcw, hocc]
    exact ⟨by rw [hred], by rw [hred]⟩
  · intro team bkey k v hpre hpost
    rcases step_cases now conn (Act.write_field_correction row col strike) g with
      hs | ⟨_, _, hs⟩ | ⟨_, hs⟩
    · rw [hs] at hpost
      refine absurd ?_ hpost
      show (boardAt (snapshotEffect now (check_timeout_and_abort now g).1)
        team bkey).lookupCell k = some v
      rw [boardAt_se, boardAt_cta]
      exact hpre
    · rw [hs] at hpost
      refine absurd ?_ hpost
      show (boardAt (check_timeout_and_abort now g).1 team bkey).lookupCell k = some v
      rw [boardAt_cta]
      exact hpre
    · rw [hs] at hpost
      have h' := handle_wfc_change now conn row col strike _ team bkey k v
        (by rw [boardAt_cta]; exact hpre) hpost
      rwa [(cta_frame now g).2.2.2.2.2.2.2.2.2.2.2.2.2.1] at h'

/-- Witness for `c8_cell_immutability`: a second write into the already
filled cell (12, free) is rejected and the room is unchanged. -/
theorem c8_witness :
    (step 0 connP1 (Act.write_field 12 Col.free false) occupiedRoom).2
      = Reply.err Err.cellOccupied ∧
    (step 0 connP1 (Act.write_field 12 Col.free false) occupiedRoom).1
      = occupiedRoom :=
  (c8_cell_immutability 0 connP1 12 Col.free false occupiedRoom).2.1
    ⟨some "p1", 1, none⟩ 0 (by decide) (by decide) (by decide) rfl (by decide)
    (by decide) (by decide) (by decide)

/-! ## The reachability invariant behind the poker timing rule -/

theorem gameInv_frame (g' g : Game) (hd : g'.dice = g.dice) (ht : g'.turn = g.turn)
    (hc : g'.correction.active = g.correction.active) (he : g'.expected = g.expected)
    (hp : g.players.length ≤ g'.players.length) (h : GameInv g) : GameInv g' := by
  obtain ⟨h1, h2, h3, h4⟩ := h
  refine ⟨?_, ?_, ?_, ?_⟩
  · intro hn
    rw [hd]
    exact h1 (ht.symm.trans hn)
  · intro t htt
    rw [he]
    exact le_trans (h2 t (ht.symm.trans htt)) hp
  · intro t k htt hk
    exact h3 t k (ht.symm.trans htt) hk
  · intro hca h4d h5d
    rw [ht]
    exact h4 (hc.symm.trans hca) (hd ▸ h4d) (hd ▸ h5d)

theorem gameInv_zero_dice (g' g : Game) (hd : g'.dice = [0, 0, 0, 0, 0])
    (ht : g'.turn = g.turn) (he : g'.expected = g.expected)
    (hp : g.players.length ≤ g'.players.length) (h : GameInv g) : GameInv g' := by
  obtain ⟨h1, h2, h3, h4⟩ := h
  refine ⟨fun _ => hd, ?_, ?_, ?_⟩
  · intro t htt
    rw [he]
    exact le_trans (h2 t (ht.symm.trans htt)) hp
  · intro t k htt hk
    exact h3 t k (ht.symm.trans htt) hk
  · intro _ h4d _
    rw [hd] at h4d
    exact absurd h4d (by decide)

theorem gameInv_zero_dice_new_turn (g' : Game) (hd : g'.dice = [0, 0, 0, 0, 0])
    (p : Option String) (ht : g'.turn = some ⟨p, 0, none⟩)
    (hexp : g'.expected ≤ g'.players.length) : GameInv g' := by
  refine ⟨fun _ => hd, fun t htt => hexp, ?_, ?_⟩
  · intro t k htt hk
    rw [ht] at htt
    injection htt with h2
    subst h2
    exact Option.noConfusion hk
  · intro _ h4d _
    rw [hd] at h4d
    exact absurd h4d (by decide)

theorem gameInv_start_correction (g' g : Game) (t : Turn) (hteq : g.turn = some t)
    (ht : g'.turn = g.turn) (hca : g'.correction.active = true)
    (he : g'.expected = g.expected) (hp : g'.players = g.players)
    (h : GameInv g) : GameInv g' := by
  refine ⟨?_, ?_, ?_, ?_⟩
  · intro hn
    exact Option.noConfusion (hteq.symm.trans (ht.symm.trans hn))
  · intro t2 htt
    rw [he, hp]
    exact h.2.1 t2 (ht.symm.trans htt)
  · intro t2 k htt hk
    exact h.2.2.1 t2 k (ht.symm.trans htt) hk
  · intro hc0 _ _
    rw [hca] at hc0
    exact Bool.noConfusion hc0

theorem gameInv_cta (now : Nat) (g : Game) (h : GameInv g) :
    GameInv (check_timeout_and_abort now g).1 := by
  have hc := cta_frame now g
  exact gameInv_frame _ g hc.1 hc.2.1 (congrArg Corr.active hc.2.2.1)
    hc.2.2.2.2.2.2.2.2.2.1
    (le_of_eq (congrArg List.length hc.2.2.2.2.2.2.2.2.1).symm) h

theorem gameInv_se (now : Nat) (g : Game) (h : GameInv g) :
    GameInv (snapshotEffect now g) := by
  have hs := se_frame now g
  exact gameInv_frame _ g hs.1 hs.2.1 (congrArg Corr.active hs.2.2.1)
    hs.2.2.2.2.2.2.2.2.2.1
    (le_of_eq (congrArg List.length hs.2.2.2.2.2.2.2.2.1).symm) h

theorem gameInv_finishSnap (now : Nat) (g : Game) (h : GameInv g) :
    GameInv (finishSnap now g).1 :=
  gameInv_se now _ (gameInv_frame _ g rfl rfl rfl rfl (le_refl _) h)

theorem team_join_frame (g1 : Game) (pid : String) :
    (if is_team_mode g1 then assign_team_for_join g1 pid else g1).turn = g1.turn ∧
    (if is_team_mode g1 then assign_team_for_join g1 pid else g1).dice = g1.dice ∧
    (if is_team_mode g1 then assign_team_for_join g1 pid else g1).correction
      = g1.correction ∧
    (if is_team_mode g1 then assign_team_for_join g1 pid else g1).players
      = g1.players ∧
    (if is_team_mode g1 then assign_team_for_join g1 pid else g1).expected
      = g1.expected := by
  split
  · exact assign_team_frame g1 pid
  · exact ⟨rfl, rfl, rfl, rfl, rfl⟩

theorem gameInv_join_body (now : Nat) (g0 : Game)
    (h1 : g0.turn = none → g0.dice = [0, 0, 0, 0, 0])
    (h2 : ∀ t, g0.turn = some t → g0.expected < g0.players.length)
    (h3 : ∀ t k, g0.turn = some t → t.first4oak_roll = some k → 1 ≤ k)
    (h4 : g0.correction.active = false → has_n_of_a_kind g0.dice 4 = true →
       has_n_of_a_kind g0.dice 5 = false →
       ∃ t k, g0.turn = some t ∧ t.first4oak_roll = some k) :
    GameInv (finishSnap now (if g0.players.length = g0.expected ∧ ¬ g0.started then
        set_roll_cap { g0 with started := true, turn := some ⟨g0.players.head?.map (·.1), 0, none⟩ }
      else g0)).1 := by
  apply gameInv_finishSnap
  split
  · rename_i hcond
    have hturn : g0.turn = none := by
      cases htt : g0.turn with
      | none => rfl
      | some t =>
          have hlt := h2 t htt
          exact absurd hcond.1 (by omega)
    have hdice := h1 hturn
    refine gameInv_zero_dice_new_turn _ ?_ (g0.players.head?.map (·.1)) ?_ ?_
    · exact ((set_roll_cap_frame _).2.2.2.2.1).trans hdice
    · exact (set_roll_cap_frame _).2.2.2.1
    · exact le_of_eq hcond.1.symm
  · exact ⟨h1, fun t htt => Nat.le_of_lt (h2 t htt), h3, h4⟩

theorem gameInv_wfc_commit (now : Nat) (conn : Conn) (row : Nat) (col : Col)
    (strike : Bool) (fld : String) (old_rolls : Nat) (dfe : List Nat)
    (gP g : Game) (ht : gP.turn = g.turn) (he : gP.expected = g.expected)
    (hp : gP.players = g.players) (h : GameInv g) :
    GameInv (wfc_commit now conn row col strike fld old_rolls dfe gP).1 := by
  simp only [wfc_commit]
  apply gameInv_finishSnap
  refine gameInv_zero_dice _ g rfl ?_ ?_ ?_ h
  · exact ((setBoardFor_frame _ _ _).2.2.1).trans ht
  · exact ((setBoardFor_frame _ _ _).2.2.2.2.2.2.2.2.1).trans he
  · exact le_of_eq
      (congrArg List.length (((setBoardFor_frame _ _ _).2.2.2.2.2.2.2.1).trans hp)).symm

theorem gameInv_handle (now : Nat) (conn : Conn) (a : Act) (g : Game)
    (h : GameInv g) : GameInv (handle now conn a g).1 := by
  cases a
  case join_game newPid name pass =>
    simp only [handle]
    split
    · exact h
    · have hA := team_join_frame { g with players := g.players ++ [(newPid, name)], scoreboards := aset g.scoreboards (some newPid) [] } newPid
      apply gameInv_join_body
      · intro hn
        rw [hA.2.1]
        exact h.1 (hA.1.symm.trans hn)
      · intro t htt
        rw [hA.2.2.2.2, hA.2.2.2.1]
        have hle := h.2.1 t (hA.1.symm.trans htt)
        show g.expected < (g.players ++ [(newPid, name)]).length
        rw [List.length_append]
        simp only [List.length_cons, List.length_nil]
        omega
      · intro t k htt hk
        exact h.2.2.1 t k (hA.1.symm.trans htt) hk
      · intro hca h4d h5d
        rw [hA.1]
        exact h.2.2.2 ((congrArg Corr.active hA.2.2.1).symm.trans hca)
          (hA.2.1 ▸ h4d) (hA.2.1 ▸ h5d)
  case spectate_game pass =>
    simp only [handle]
    split
    · exact h
    · exact gameInv_finishSnap now g h
  case rejoin_game pid =>
    simp only [handle]
    exact gameInv_finishSnap now g h
  case set_hold hs =>
    simp only [handle]
    exact gameInv_finishSnap now _ (gameInv_frame _ g rfl rfl rfl rfl (le_refl _) h)
  case roll_dice outcome =>
    simp only [handle]
    split
    · exact h
    · rename_i t hteq
      split
      · exact h
      · split
        · exact h
        · split
          · exact h
          · apply gameInv_finishSnap
            split
            · refine ⟨?_, ?_, ?_, ?_⟩
              · intro hn
                exact Option.noConfusion hn
              · intro t2 htt
                exact h.2.1 t hteq
              · intro t2 k htt hk
                have he2 : _ = t2 := Option.some.inj htt
                subst he2
                have hk2 : t.roll_index + 1 = k := Option.some.inj hk
                omega
              · intro _ _ _
                exact ⟨_, t.roll_index + 1, rfl, rfl⟩
            · rename_i hcond
              refine ⟨?_, ?_, ?_, ?_⟩
              · intro hn
                exact Option.noConfusion hn
              · intro t2 htt
                exact h.2.1 t hteq
              · intro t2 k htt hk
                have he2 : _ = t2 := Option.some.inj htt
                subst he2
                exact h.2.2.1 t k hteq hk
              · intro hca h4d h5d
                have hne : ¬ t.first4oak_roll = none := fun hn => hcond ⟨hn, h4d⟩
                cases hf : t.first4oak_roll with
                | none => exact absurd hf hne
                | some k0 => exact ⟨_, k0, rfl, rfl⟩
  case announce_row4 field =>
    simp only [handle]
    repeat' split
    all_goals
      first
        | exact h
        | exact gameInv_finishSnap now _
            (gameInv_frame _ g rfl rfl rfl rfl (le_refl _) h)
  case unannounce_row4 =>
    simp only [handle]
    repeat' split
    all_goals
      first
        | exact h
        | exact gameInv_finishSnap now _
            (gameInv_frame _ g rfl rfl rfl rfl (le_refl _) h)
  case write_field row col strike =>
    simp only [handle]
    repeat' split
    all_goals
      first
        | exact h
        | (apply gameInv_finishSnap
           refine gameInv_zero_dice_new_turn _ rfl _ rfl ?_
           refine le_trans (le_of_eq ((set_roll_cap_frame _).2.2.2.2.2.2.1)) ?_
           refine le_trans ?_
             (le_of_eq (congrArg List.length ((set_roll_cap_frame _).2.2.2.2.2.1)).symm)
           refine le_trans
             (le_of_eq ((setBoardFor_frame _ _ _).2.2.2.2.2.2.2.2.1)) ?_
           refine le_trans ?_
             (le_of_eq (congrArg List.length ((setBoardFor_frame _ _ _).2.2.2.2.2.2.2.1)).symm)
           exact h.2.1 _ (by assumption))
  case request_correction =>
    simp only [handle]
    repeat' split
    all_goals
      first
        | exact h
        | exact gameInv_finishSnap now _
            (gameInv_start_correction _ g _ (by assumption) rfl rfl rfl rfl h)
  case cancel_correction =>
    simp only [handle]
    split
    · exact h
    · exact gameInv_finishSnap now _ (gameInv_zero_dice _ g rfl rfl rfl (le_refl _) h)
  case write_field_correction row col strike =>
    simp only [handle]
    repeat' split
    all_goals
      first
        | exact h
        | exact gameInv_frame _ g (setBoardFor_frame _ _ _).2.1
            (setBoardFor_frame _ _ _).2.2.1
            (congrArg Corr.active (setBoardFor_frame _ _ _).1)
            (setBoardFor_frame _ _ _).2.2.2.2.2.2.2.2.1
            (le_of_eq
              (congrArg List.length (setBoardFor_frame _ _ _).2.2.2.2.2.2.2.1).symm) h
        | exact gameInv_wfc_commit now conn row col strike _ _ _ _ g
            (setBoardFor_frame _ _ _).2.2.1
            (setBoardFor_frame _ _ _).2.2.2.2.2.2.2.2.1
            (setBoardFor_frame _ _ _).2.2.2.2.2.2.2.1 h
  case send_emoji emoji =>
    simp only [handle]
    repeat' split
    all_goals
      first
        | exact h
        | exact gameInv_frame _ g rfl rfl rfl rfl (le_refl _) h
  case chat_message txt =>
    simp only [handle]
    split
    · exact h
    · exact gameInv_frame _ g rfl rfl rfl rfl (le_refl _) h
  case end_game =>
    simp only [handle]
    exact gameInv_finishSnap now _ (gameInv_frame _ g rfl rfl rfl rfl (le_refl _) h)
  case unknown =>
    simp only [handle]
    exact h

theorem gameInv_step (now : Nat) (conn : Conn) (a : Act) (g : Game)
    (h : GameInv g) : GameInv (step now conn a g).1 := by
  rcases step_cases now conn a g with hs | ⟨_, _, hs⟩ | ⟨_, hs⟩
  · rw [hs]
    exact gameInv_se now _ (gameInv_cta now g h)
  · rw [hs]
    exact gameInv_cta now g h
  · rw [hs]
    exact gameInv_handle now conn a _ (gameInv_cta now g h)

theorem gameInv_new_game (mode : Mode) (pass : Option String) (t0 : Nat) :
    GameInv (new_game mode pass t0) := by
  refine ⟨fun _ => rfl, ?_, ?_, ?_⟩
  · intro t htt
    exact Option.noConfusion htt
  · intro t k htt hk
    exact Option.noConfusion htt
  · intro _ h4d _
    rw [show (new_game mode pass t0).dice = [0, 0, 0, 0, 0] from rfl] at h4d
    exact absurd h4d (by decide)

theorem gameInv_run (g : Game) (evs : List Event) (h : GameInv g) :
    GameInv (run g evs) := by
  induction evs generalizing g with
  | nil => exact h
  | cons e rest ih => exact ih _ (gameInv_step e.now e.conn e.act g h)

theorem reachable_inv (g : Game) (h : Reachable g) : GameInv g := by
  obtain ⟨mode, pass, t0, evs, rfl⟩ := h
  exact gameInv_run _ evs (gameInv_new_game mode pass t0)

theorem has_ge_mono (dice : List Nat) (m n : Nat) (hmn : m ≤ n)
    (h : has_n_of_a_kind dice n = true) : has_n_of_a_kind dice m = true := by
  unfold has_n_of_a_kind at h ⊢
  rw [List.any_eq_true] at h ⊢
  obtain ⟨d, hd, hp⟩ := h
  rw [Bool.and_eq_true, decide_eq_true_eq] at hp
  refine ⟨d, hd, ?_⟩
  rw [Bool.and_eq_true, decide_eq_true_eq]
  exact ⟨hp.1, le_trans hmn hp.2⟩

/-- Under the reachability invariant the `first4_eff` fallback of the live
poker gate never fires, and the gate agrees with the specification's timing
condition. -/
theorem poker_allowed_claim (g : Game) (t : Turn) (col : Col)
    (hinv : GameInv g) (ht : g.turn = some t) (hcorr : g.correction.active = false) :
    poker_allowed_points_live t g.dice g.announced_row4 col = pokerClaimCondB g col := by
  unfold poker_allowed_points_live pokerClaimCondB
  rw [ht]
  cases h5 : has_n_of_a_kind g.dice 5 with
  | true =>
      have h4 := has_ge_mono g.dice 4 5 (by omega) h5
      simp [h4, h5]
  | false =>
      cases h4 : has_n_of_a_kind g.dice 4 with
      | false => simp [h4, h5]
      | true =>
          obtain ⟨t2, k, ht2, hk⟩ := hinv.2.2.2 hcorr h4 h5
          have ht2' : t2 = t := Option.some.inj (ht2.symm.trans ht)
          rw [ht2'] at hk
          have hk1 : 1 ≤ k := hinv.2.2.1 t k ht hk
          have hk0 : (k == 0) = false := by
            rw [beq_eq_false_iff_ne]
            omega
          by_cases hrk : t.roll_index = k
          · have hb1 : (t.roll_index == k) = true := by
              rw [hrk]
              exact beq_self_eq_true k
            have hb2 : (t.first4oak_roll == some t.roll_index) = true := by
              rw [hk, hrk]
              exact beq_self_eq_true _
            have hkne : (k != 0) = true := by
              simp [bne, hk0]
            have hb2a : (k == t.roll_index) = true := by
              rw [hrk]
              exact beq_self_eq_true k
            by_cases hann : g.announced_row4 = some "poker"
            · have ha1 : (g.announced_row4 == some "poker") = true := by
                rw [hann]
                exact beq_self_eq_true _
              cases col <;> simp [h4, h5, hk, truthyIdx, hk0, hb1, hb2, hkne, hb2a, ha1, hann]
            · have ha1 : (g.announced_row4 == some "poker") = false := by
                rw [beq_eq_false_iff_ne]
                exact hann
              cases col <;> simp [h4, h5, hk, truthyIdx, hk0, hb1, hb2, hkne, hb2a, ha1, hann]
          · have hb1 : (t.roll_index == k) = false := by
              rw [beq_eq_false_iff_ne]
              exact hrk
            have hb2 : (t.first4oak_roll == some t.roll_index) = false := by
              rw [hk, beq_eq_false_iff_ne]
              intro hc
              exact hrk (Option.some.inj hc).symm
            have hkne : (k != 0) = true := by
              simp [bne, hk0]
            have hb2a : (k == t.roll_index) = false := by
              rw [beq_eq_false_iff_ne]
              intro hc
              exact hrk hc.symm
            by_cases hann : g.announced_row4 = some "poker"
            · have ha1 : (g.announced_row4 == some "poker") = true := by
                rw [hann]
                exact beq_self_eq_true _
              cases col <;> simp [h4, h5, hk, truthyIdx, hk0, hb1, hb2, hkne, hb2a, ha1, hann]
            · have ha1 : (g.announced_row4 == some "poker") = false := by
                rw [beq_eq_false_iff_ne]
                exact hann
              cases col <;> simp [h4, h5, hk, truthyIdx, hk0, hb1, hb2, hkne, hb2a, ha1, hann]

theorem boardFor_congr (g' g : Game) (pid : Option String)
    (hm : g'.mode = g.mode) (hto : g'.team_of = g.team_of)
    (hs : g'.scoreboards = g.scoreboards)
    (hbt : g'.scoreboards_by_team = g.scoreboards_by_team) :
    boardFor g' pid = boardFor g pid := by
  unfold boardFor board_key_for_actor is_team_mode
  simp only [hm, hto, hs, hbt]

theorem boardFor_se (now : Nat) (g : Game) (pid : Option String) :
    boardFor (snapshotEffect now g) pid = boardFor g pid :=
  boardFor_congr _ g pid (se_frame now g).2.2.2.2.2.2.2.1
    (se_frame now g).2.2.2.2.2.2.1 (se_frame now g).2.2.2.2.1
    (se_frame now g).2.2.2.2.2.1

theorem boardFor_touch (now : Nat) (g : Game) (pid : Option String) :
    boardFor (touch now g) pid = boardFor g pid :=
  boardFor_congr _ g pid rfl rfl rfl rfl

theorem boardFor_src (g : Game) (pid : Option String) :
    boardFor (set_roll_cap g) pid = boardFor g pid :=
  boardFor_congr _ g pid (set_roll_cap_frame g).2.2.1
    (set_roll_cap_frame g).2.2.2.2.2.2.2.2 (set_roll_cap_frame g).1
    (set_roll_cap_frame g).2.1

theorem boardFor_finish_flags (g : Game) (pid : Option String) :
    boardFor { g with started := false, finished := true } pid = boardFor g pid :=
  boardFor_congr _ g pid rfl rfl rfl rfl

theorem boardFor_wf_tail (g : Game) (tn : Option Turn) (lw : AMap (Nat × Col × Nat))
    (ld : AMap (List Nat)) (lm : AMap LastMeta) (pid : Option String) :
    boardFor { g with turn := tn, dice := [0, 0, 0, 0, 0], holds := [false, false, false, false, false], rolls_used := 0, announced_row4 := none, announced_by := none, announced_board := none, last_write := lw, last_dice := ld, last_meta := lm } pid = boardFor g pid :=
  boardFor_congr _ g pid rfl rfl rfl rfl

/-- C2 — confirmed.  A legal `write_field` into the poker row (row 14) is
accepted, committing exactly the value computed by the gate (`wf_value`);
in any reachable room a nonzero committed poker value implies the timing
condition of the specification (five-of-a-kind, or four-of-a-kind on exactly
the turn's recorded first four-of-a-kind roll, or any four-of-a-kind in the
announced column under an active poker announcement); and when the raw poker
score is nonzero but the condition fails, the committed value is the silent
zero strike — the write is not rejected. -/
theorem c2_poker_write_timing (now : Nat) (conn : Conn) (col : Col)
    (strike : Bool) (g : Game) (t : Turn) (l : Nat)
    (hreach : Reachable g)
    (hspec : conn.is_spectator = false)
    (hfired : (check_timeout_and_abort now g).2 = false)
    (hla : g.last_activity = some l)
    (ht : g.turn = some t)
    (hpid : t.player_id = conn.player_id)
    (hcorr : g.correction.active = false)
    (hcw : can_write_now g conn.player_id 14 col g.announced_row4 = none)
    (hocc : (boardFor g conn.player_id).containsCell (14, col) = false) :
    (step now conn (Act.write_field 14 col strike) g).2 = Reply.ok ∧
    (boardFor (step now conn (Act.write_field 14 col strike) g).1
        conn.player_id).lookupCell (14, col)
      = some (wf_value strike "poker" t g col) ∧
    (0 < wf_value strike "poker" t g col → pokerClaimCondB g col = true) ∧
    (pokerClaimCondB g col = false →
      0 < score_field_value "poker" (diceOr g.dice) →
      wf_value strike "poker" t g col = 0) := by
  have hinv := reachable_inv g hreach
  have hallow := poker_allowed_claim g t col hinv ht hcorr
  have hfld : WRITABLE_MAP 14 = some "poker" := rfl
  have hred : step now conn (Act.write_field 14 col strike) g
      = handle now conn (Act.write_field 14 col strike) g := by
    rw [step_not_fired now conn _ g hfired hspec, cta_not_fired_eq now g l hla hfired]
  refine ⟨?_, ?_, ?_, ?_⟩
  · rw [hred]
    simp only [handle]
    rw [ht]
    simp [hpid, hcorr, hfld, hcw, hocc, finishSnap]
  · rw [hred]
    simp only [handle]
    rw [ht]
    simp only [hpid, hcorr, hfld, hcw, hocc, finishSnap]
    simp [hpid, hcorr, hfld, hcw, hocc, finishSnap]
    rw [boardFor_se, boardFor_touch]
    split
    · rw [boardFor_finish_flags, boardFor_src, boardFor_wf_tail,
          boardFor_setBoardFor, lookupCell_setCell_self]
    · rw [boardFor_src, boardFor_wf_tail,
          boardFor_setBoardFor, lookupCell_setCell_self]
  · intro hv
    unfold wf_value at hv
    split at hv
    · exact absurd hv (by decide)
    · rename_i hns
      by_contra hcb
      rw [Bool.not_eq_true] at hcb
      have hall := hallow.trans hcb
      apply hns
      unfold wf_strike
      simp [hall, hv]
  · intro hcb hraw
    have hall := hallow.trans hcb
    unfold wf_value wf_strike
    simp [hall, hraw]

/-- Witness for `c2_poker_write_timing`: in `lateFourRoom` four-of-a-kind was
first recorded on roll 1 but the write happens on roll 2, so the raw poker
score 62 is committed as a silent zero strike. -/
theorem c2_witness :
    (step 0 connP1 (Act.write_field 14 Col.free false) lateFourRoom).2
      = Reply.ok ∧
    (boardFor (step 0 connP1 (Act.write_field 14 Col.free false) lateFourRoom).1
        connP1.player_id).lookupCell (14, Col.free)
      = some (wf_value false "poker" ⟨some "p1", 2, some 1⟩ lateFourRoom Col.free) ∧
    wf_value false "poker" ⟨some "p1", 2, some 1⟩ lateFourRoom Col.free = 0 := by
  have h := c2_poker_write_timing 0 connP1 Col.free false lateFourRoom
    ⟨some "p1", 2, some 1⟩ 0
    ⟨Mode.players 2, none, 0, twoPlayerStart ++
      [⟨0, connP1, Act.roll_dice [3, 3, 3, 3, 5]⟩,
       ⟨0, connP1, Act.set_hold [true, true, true, true, true]⟩,
       ⟨0, connP1, Act.roll_dice [6, 6, 6, 6, 6]⟩], by decide⟩ rfl (by decide)
    (by decide) (by decide) rfl (by decide) (by decide) (by decide)
  exact ⟨h.1, h.2.1, h.2.2.2 (by decide) (by decide)⟩
